import Mathlib

/-!
Verification of the sensorsdata/sa-sdk-c event-tracking library
(`sensors_analytics.c` / `sensors_analytics.h`).

C strings are modelled as lists of byte values (`Bytes := List Nat`); C
strings are NUL-terminated and NUL-free, so a C string corresponds to the
list of its bytes before the terminator.  The POSIX build variant
(`USE_POSIX`) is the one modelled: that is the variant in which both
regex checks of `_sa_assert_key_name` are active.

Status codes are the `SAErrCode` enum of sensors_analytics.h.
-/

namespace SA

abbrev Bytes := List Nat

/-- ASCII string literal to byte list (all literals used are ASCII, where
the UTF-8 bytes coincide with the character codes). -/
def bs (s : String) : Bytes := s.data.map Char.toNat

-- SAErrCode values (enum order in sensors_analytics.h).
def SA_OK : Nat := 0
def SA_MALLOC_ERROR : Nat := 1
def SA_INVALID_PARAMETER_ERROR : Nat := 2
def SA_IO_ERROR : Nat := 3

/-- `struct SANode`: the tagged, children-carrying value-tree node.
`key` is the optional dict key (`char* key`, NULL ↦ `none`).  The
reference count is memory management only and is not modelled.  The C
`double` payload of `SA_NUMBER` is carried opaquely as an index into an
environment-supplied rendering (no claim under verification depends on
floating-point values). -/
inductive SANode where
  | bool_ (key : Option Bytes) (b : Bool)
  | number_ (key : Option Bytes) (x : Nat)
  | int_ (key : Option Bytes) (i : Int)
  | date_ (key : Option Bytes) (seconds : Int) (microseconds : Int)
  | string_ (key : Option Bytes) (s : Bytes)
  | list_ (key : Option Bytes) (children : List SANode)
  | dict_ (key : Option Bytes) (children : List SANode)
  deriving Repr

namespace SANode

def key : SANode → Option Bytes
  | bool_ k _ => k
  | number_ k _ => k
  | int_ k _ => k
  | date_ k _ _ => k
  | string_ k _ => k
  | list_ k _ => k
  | dict_ k _ => k

def children : SANode → List SANode
  | list_ _ c => c
  | dict_ _ c => c
  | _ => []

def isDict : SANode → Bool
  | dict_ _ _ => true
  | _ => false

def isList : SANode → Bool
  | list_ _ _ => true
  | _ => false

/-- `date_.seconds` as read by `_sa_track_internal`'s `$time` branch.  The
C code reads the union field without checking the tag; for a non-date
node that is a type-punned read of unrelated union memory, which we do
not model (the claims under verification only exercise date nodes). -/
def dateSeconds : SANode → Int
  | date_ _ s _ => s
  | _ => 0

def dateMicroseconds : SANode → Int
  | date_ _ _ u => u
  | _ => 0

/-- `string_` payload as read by the `$project` branch; same union-pun
caveat as `dateSeconds` for non-string nodes. -/
def stringPayload : SANode → Bytes
  | string_ _ s => s
  | _ => []

end SANode

open SANode

-- Tree operations ------------------------------------------------------------

/-- `strncmp(a, b, 256) == 0` for NUL-free byte strings: equality of the
first 256 bytes. -/
def keyEq (a b : Bytes) : Bool := a.take 256 == b.take 256

/-- Does a child node's (optional) key match search key `k`?  A NULL key
never matches (`NULL != curr->value->key && 0 == strncmp(...)`). -/
def keyMatch (ck : Option Bytes) (k : Bytes) : Bool :=
  match ck with
  | none => false
  | some ck => keyEq ck k

/-- The unlink loop of `_sa_remove_child` over the child list: a NULL
`key` removes every child, otherwise every child whose key matches. -/
def removeMatching (key : Option Bytes) : List SANode → List SANode
  | [] => []
  | c :: rest =>
    if (match key with
        | none => true
        | some k => keyMatch c.key k) then
      removeMatching key rest
    else
      c :: removeMatching key rest

/-- `_sa_remove_child(key, parent)`: no-op unless parent is a dict or a
list. -/
def _sa_remove_child (key : Option Bytes) (parent : SANode) : SANode :=
  match parent with
  | .dict_ pk ch => .dict_ pk (removeMatching key ch)
  | .list_ pk ch => .list_ pk (removeMatching key ch)
  | other => other

/-- The scan loop of `_sa_get_child` over the child list. -/
def findKey (k : Bytes) : List SANode → Option SANode
  | [] => none
  | c :: rest => if keyMatch c.key k then some c else findKey k rest

/-- `_sa_get_child(key, parent)`: NULL unless the parent is a dict
(lists are not searched), then a linear scan by `strncmp(..., 256)`. -/
def _sa_get_child (k : Bytes) (parent : SANode) : Option SANode :=
  match parent with
  | .dict_ _ ch => findKey k ch
  | _ => none

/-- `_sa_add_child(child, parent)`: fails (parent unchanged, C returns
NULL) unless parent is a dict or list; for a dict, a NULL child key also
fails, otherwise all same-key children are removed first and the new
child is prepended; for a list the child is prepended unconditionally.
The C mutates the parent in place; the model returns the new parent. -/
def _sa_add_child (child parent : SANode) : SANode :=
  match parent with
  | .dict_ pk ch =>
    match child.key with
    | none => .dict_ pk ch
    | some k => .dict_ pk (child :: removeMatching (some k) ch)
  | .list_ pk ch => .list_ pk (child :: ch)
  | other => other

/-- Fold of `_sa_add_child` over a list of children, in list order — the
`while` loops of `sa_register_super_properties` and of the
super-property merge in `_sa_track_internal`. -/
def addAll (cs : List SANode) (parent : SANode) : SANode :=
  cs.foldl (fun acc c => _sa_add_child c acc) parent

-- Property builders (sensors_analytics.c lines 737-838) ----------------------

def sa_init_properties : SANode := .dict_ (some (bs "properties")) []

/-- `sa_add_bool`: builds the child and hands it to `_sa_add_child`,
ignoring the adoption result; returns `SA_OK` (the NULL-properties check
is the caller's concern; the model takes a present node). -/
def sa_add_bool (key : Option Bytes) (b : Bool) (properties : SANode) :
    Nat × SANode :=
  (SA_OK, _sa_add_child (.bool_ key b) properties)

def sa_add_number (key : Option Bytes) (x : Nat) (properties : SANode) :
    Nat × SANode :=
  (SA_OK, _sa_add_child (.number_ key x) properties)

def sa_add_int (key : Option Bytes) (i : Int) (properties : SANode) :
    Nat × SANode :=
  (SA_OK, _sa_add_child (.int_ key i) properties)

def sa_add_date (key : Option Bytes) (seconds microseconds : Int)
    (properties : SANode) : Nat × SANode :=
  (SA_OK, _sa_add_child (.date_ key seconds microseconds) properties)

def sa_add_string (key : Option Bytes) (s : Bytes) (properties : SANode) :
    Nat × SANode :=
  (SA_OK, _sa_add_child (.string_ key s) properties)

-- NameValidator (KEY_WORD_PATTERN / NAME_PATTERN, _sa_assert_key_name) -------

/-- ASCII case folding, as applied byte-wise by `REG_ICASE`. -/
def toLowerByte (b : Nat) : Nat := if 65 ≤ b ∧ b ≤ 90 then b + 32 else b

/-- The alternation of `KEY_WORD_PATTERN`, each alternative anchored with
`^...$` (stored lower-case; the regex is compiled with `REG_ICASE`). -/
def keyWords : List Bytes :=
  [bs "distinct_id", bs "original_id", bs "time", bs "properties", bs "id",
   bs "first_id", bs "second_id", bs "users", bs "events", bs "event",
   bs "user_id", bs "date", bs "datetime"]

/-- `0 == regexec(&regex[0], key, ...)`: the key is a case-insensitive
exact match of one of the reserved words. -/
def matchKeyWord (k : Bytes) : Bool :=
  keyWords.any (fun w => k.map toLowerByte == w)

/-- First-byte class of `NAME_PATTERN`: `[a-zA-Z_$]`. -/
def isNameHead (b : Nat) : Bool :=
  (65 ≤ b && b ≤ 90) || (97 ≤ b && b ≤ 122) || b == 95 || b == 36

/-- Tail-byte class of `NAME_PATTERN`: `[a-zA-Z0-9_$]`. -/
def isNameTail (b : Nat) : Bool := isNameHead b || (48 ≤ b && b ≤ 57)

/-- `0 == regexec(&regex[1], key, ...)`: the language of
`^[a-zA-Z_$][a-zA-Z0-9_$]{0,99}$` (anchored, so an exact match of the
whole key; `REG_ICASE` is irrelevant for these character classes). -/
def matchNamePattern : Bytes → Bool
  | [] => false
  | b :: rest => isNameHead b && rest.all isNameTail && rest.length ≤ 99

/-- `NULL == key ? (unsigned long)-1 : strlen(key)`: byte length, with a
NULL pointer mapped to `2^64 - 1` (64-bit `unsigned long`). -/
def optLen (k : Option Bytes) : Nat :=
  match k with
  | none => 2 ^ 64 - 1
  | some k => k.length

/-- `_sa_assert_key_name` (POSIX variant): length in [1,255], then no
reserved-word match, then the identifier-grammar match. -/
def _sa_assert_key_name (key : Option Bytes) : Nat :=
  let key_len := optLen key
  if key_len < 1 || 255 < key_len then SA_INVALID_PARAMETER_ERROR
  else
    match key with
    | none => SA_INVALID_PARAMETER_ERROR  -- unreachable: optLen none > 255
    | some k =>
      if matchKeyWord k then SA_INVALID_PARAMETER_ERROR
      else if !matchNamePattern k then SA_INVALID_PARAMETER_ERROR
      else SA_OK

/-- Modelled from the spec: the claim C5 characterization of the
NameValidator ("byte length of n is in [1,255], n is not a
case-insensitive exact match of any reserved word, and n matches the
identifier grammar: first byte in [A-Za-z_$] followed by 0 to 99 bytes
in [A-Za-z0-9_$]"), written from the claim's words for comparison with
the code-derived `_sa_assert_key_name`. -/
def nameValidatorSpec (n : Bytes) : Prop :=
  1 ≤ n.length ∧ n.length ≤ 255 ∧
  (n.map toLowerByte) ∉ keyWords ∧
  (match n with
   | [] => False
   | b :: rest =>
     isNameHead b = true ∧ (∀ c ∈ rest, isNameTail c = true) ∧
     rest.length ≤ 99)

-- Operation type tests and the legality check --------------------------------

/-- `_sa_is_track`: `0 == strncmp(type, "track", strlen("track"))`, i.e.
the first five bytes of `type` equal `"track"` (so any type *starting*
with "track" — including "track_signup" — tests positive). -/
def _sa_is_track (type_ : Bytes) : Bool := type_.take 5 == bs "track"

/-- `_sa_is_track_signup`: first twelve bytes equal `"track_signup"`. -/
def _sa_is_track_signup (type_ : Bytes) : Bool :=
  type_.take 12 == bs "track_signup"

/-- The property-key loop of `_sa_check_legality`: the first child with a
NULL key or a key failing `_sa_assert_key_name` aborts with
`SA_INVALID_PARAMETER_ERROR`. -/
def checkPropList : List SANode → Nat
  | [] => SA_OK
  | c :: rest =>
    if c.key.isNone || (_sa_assert_key_name c.key != SA_OK) then
      SA_INVALID_PARAMETER_ERROR
    else checkPropList rest

/-- `_sa_check_legality`: distinct id length, origin id length (signup
only), event name (types starting with "track"), then every supplied
property key. -/
def _sa_check_legality (distinct_id origin_id : Option Bytes)
    (type_ : Bytes) (event : Option Bytes) (properties : Option SANode) :
    Nat :=
  if optLen distinct_id < 1 || 255 < optLen distinct_id then
    SA_INVALID_PARAMETER_ERROR
  else if _sa_is_track_signup type_ &&
      (optLen origin_id < 1 || 255 < optLen origin_id) then
    SA_INVALID_PARAMETER_ERROR
  else if _sa_is_track type_ &&
      (event.isNone || (_sa_assert_key_name event != SA_OK)) then
    SA_INVALID_PARAMETER_ERROR
  else
    match properties with
    | none => SA_OK
    | some p => checkPropList p.children

-- Encoder (UTF-8 validation and JSON serialization) ---------------------------

/-- `sa_utf8_validate_cz`: length (1..4) of the UTF-8 sequence starting
at the head of `s`, or 0 if invalid or clipped.  The C walks a
NUL-terminated string; reading at or past the terminator yields the NUL
byte, which every continuation-byte check rejects — modelled by
`getD _ 0`. -/
def sa_utf8_validate_cz (s : Bytes) : Nat :=
  if s.getD 0 0 ≤ 0x7F then 1
  else if s.getD 0 0 ≤ 0xC1 then 0        -- overlong 2-byte sequence
  else if s.getD 0 0 ≤ 0xDF then
    if s.getD 1 0 &&& 0xC0 != 0x80 then 0 else 2
  else if s.getD 0 0 ≤ 0xEF then
    if s.getD 0 0 == 0xE0 && s.getD 1 0 < 0xA0 then 0 -- overlong 3-byte
    else if s.getD 0 0 == 0xED && 0x9F < s.getD 1 0 then 0 -- U+D800..U+DFFF
    else if s.getD 1 0 &&& 0xC0 != 0x80 then 0
    else if s.getD 2 0 &&& 0xC0 != 0x80 then 0
    else 3
  else if s.getD 0 0 ≤ 0xF4 then
    if s.getD 0 0 == 0xF0 && s.getD 1 0 < 0x90 then 0 -- overlong 4-byte
    else if s.getD 0 0 == 0xF4 && 0x8F < s.getD 1 0 then 0 -- beyond U+10FFFF
    else if s.getD 1 0 &&& 0xC0 != 0x80 then 0
    else if s.getD 2 0 &&& 0xC0 != 0x80 then 0
    else if s.getD 3 0 &&& 0xC0 != 0x80 then 0
    else 4
  else 0

/-- `sa_utf8_validate`: every position decodes. -/
def sa_utf8_validate : Bytes → Bool
  | [] => true
  | c :: rest =>
    if _h : sa_utf8_validate_cz (c :: rest) = 0 then false
    else sa_utf8_validate ((c :: rest).drop (sa_utf8_validate_cz (c :: rest)))
termination_by s => s.length
decreasing_by
  simp only [List.length_drop, List.length_cons]
  omega

/-- `utf8_read_char`: decode the code point at the head (assumes valid
input); bit-masking on bytes < 256 written with division/modulus
(`b &&& 0x3F = b % 64`, etc.). -/
def utf8_read_char (s : Bytes) : Nat × Nat :=
  let c0 := s.getD 0 0
  let c1 := s.getD 1 0
  let c2 := s.getD 2 0
  let c3 := s.getD 3 0
  if c0 ≤ 0x7F then (c0, 1)
  else if c0 ≤ 0xDF then ((c0 % 0x20) * 0x40 + c1 % 0x40, 2)
  else if c0 ≤ 0xEF then
    ((c0 % 0x10) * 0x1000 + (c1 % 0x40) * 0x40 + c2 % 0x40, 3)
  else
    ((c0 % 0x8) * 0x40000 + (c1 % 0x40) * 0x1000 + (c2 % 0x40) * 0x40
      + c3 % 0x40, 4)

/-- `_sa_write_hex16`: exactly four upper-case hex digit bytes. -/
def hexDigit (n : Nat) : Nat := if n < 10 then 48 + n else 55 + n
def _sa_write_hex16 (val : Nat) : Bytes :=
  [hexDigit (val / 0x1000 % 16), hexDigit (val / 0x100 % 16),
   hexDigit (val / 0x10 % 16), hexDigit (val % 16)]

/-- `_sa_to_surrogate_pair` for U+10000..U+10FFFF; `((n >> 10) & 0x3FF) |
0xD800` equals `n / 0x400 % 0x400 + 0xD800` since the OR operands have
disjoint bits. -/
def _sa_to_surrogate_pair (unicode : Nat) : Nat × Nat :=
  let n := unicode - 0x10000
  (n / 0x400 % 0x400 + 0xD800, n % 0x400 + 0xDC00)

/-- A `\uXXXX` escape, or a surrogate pair above U+FFFF. -/
def escapeUnicodeBytes (unicode : Nat) : Bytes :=
  if unicode ≤ 0xFFFF then [92, 117] ++ _sa_write_hex16 unicode
  else
    let p := _sa_to_surrogate_pair unicode
    [92, 117] ++ _sa_write_hex16 p.1 ++ [92, 117] ++ _sa_write_hex16 p.2

/-- The per-character encoding loop of `_sa_dump_string` (everything
between the two quotation marks).  `escape_unicode` is the local
`SABool escape_unicode = SA_FALSE` variable ("force-ASCII" mode, always
off in this source).  An invalid sequence (`sa_utf8_validate_cz == 0`)
is replaced by U+FFFD — `EF BF BD`, or `�` under force-ASCII — and
exactly one byte is skipped. -/
def dumpStringBody (escape_unicode : Bool) : Bytes → Bytes
  | [] => []
  | c :: rest =>
    if c == 34 then [92, 34] ++ dumpStringBody escape_unicode rest
    else if c == 92 then [92, 92] ++ dumpStringBody escape_unicode rest
    else if c == 8 then [92, 98] ++ dumpStringBody escape_unicode rest
    else if c == 12 then [92, 102] ++ dumpStringBody escape_unicode rest
    else if c == 10 then [92, 110] ++ dumpStringBody escape_unicode rest
    else if c == 13 then [92, 114] ++ dumpStringBody escape_unicode rest
    else if c == 9 then [92, 116] ++ dumpStringBody escape_unicode rest
    else
      let len := sa_utf8_validate_cz (c :: rest)
      if len == 0 then
        (if escape_unicode then bs "\\uFFFD" else [0xEF, 0xBF, 0xBD]) ++
          dumpStringBody escape_unicode rest
      else if c < 0x1F || (0x80 ≤ c && escape_unicode) then
        let rc := utf8_read_char (c :: rest)
        escapeUnicodeBytes rc.1 ++
          dumpStringBody escape_unicode (rest.drop (rc.2 - 1))
      else
        (c :: rest).take len ++
          dumpStringBody escape_unicode (rest.drop (len - 1))
termination_by s => s.length
decreasing_by all_goals simp [List.length_drop] <;> omega

/-- `_sa_dump_string` on the string payload: validate the whole string
first — on failure return `SA_INVALID_PARAMETER_ERROR` having written
nothing — otherwise write the quoted, escaped string and return
`SA_OK`.  The result is (status, bytes appended to the buffer). -/
def _sa_dump_string (s : Bytes) : Nat × Bytes :=
  if !sa_utf8_validate s then (SA_INVALID_PARAMETER_ERROR, [])
  else (SA_OK, [34] ++ dumpStringBody false s ++ [34])

-- Decimal / date formatting ---------------------------------------------------

/-- Decimal digit bytes of a natural number (`snprintf "%lld"` &c.). -/
def natDigits (n : Nat) : Bytes :=
  if h : n < 10 then [48 + n]
  else natDigits (n / 10) ++ [48 + n % 10]
decreasing_by exact Nat.div_lt_self (by omega) (by omega)

/-- `%lld` of a (possibly negative) integer. -/
def intDigits (i : Int) : Bytes :=
  if i < 0 then 45 :: natDigits i.natAbs else natDigits i.natAbs

/-- `%0⟨w⟩d` of a natural number: zero-padded to at least `w` digits. -/
def padNat (w n : Nat) : Bytes :=
  let ds := natDigits n
  List.replicate (w - ds.length) 48 ++ ds

/-- `%0⟨w⟩d` of an integer: printf pads with zeros after the sign, the
sign counting toward the field width. -/
def padInt (w : Nat) (i : Int) : Bytes :=
  if i < 0 then 45 :: padNat (w - 1) i.natAbs else padNat w i.natAbs

/-- `struct tm` as produced by `localtime`: the fields the source reads.
`year` is `tm_year`, years since 1900; `mon` is `tm_mon`, 0-based. -/
structure Tm where
  year : Int
  mon : Int
  mday : Int
  hour : Int
  min : Int
  sec : Int

/-- The external environment of a call: the wall clock read by
`gettimeofday`, the `localtime` table, and the opaque `%.3f` rendering
of `double` payloads (floating point is not modelled; no claim depends
on it). -/
structure Env where
  nowSec : Int
  nowUsec : Int
  localtime : Int → Tm
  fmtDouble : Nat → Bytes

/-- The `SA_DATE` branch of `_sa_dump_node`:
`"%04d-%02d-%02d %02d:%02d:%02d.%03d"` over the localtime fields, with
the raw `microseconds` value in the final field. -/
def dumpDate (env : Env) (seconds microseconds : Int) : Bytes :=
  let tm := env.localtime seconds
  [34] ++ padInt 4 (tm.year + 1900) ++ [45] ++ padInt 2 (tm.mon + 1)
    ++ [45] ++ padInt 2 tm.mday ++ [32] ++ padInt 2 tm.hour ++ [58]
    ++ padInt 2 tm.min ++ [58] ++ padInt 2 tm.sec ++ [46]
    ++ padInt 3 microseconds ++ [34]

mutual
/-- `_sa_dump_node`: (status, bytes appended).  Note the `SA_STRING`
case: the C calls `_sa_dump_string(node, sb)` *without using its return
value* and falls through to `return SA_OK`, so a string that fails
UTF-8 validation is silently omitted from the output while the node
dump still reports success. -/
def _sa_dump_node (env : Env) : SANode → Nat × Bytes
  | .bool_ _ b => (SA_OK, if b then bs "true" else bs "false")
  | .number_ _ x => (SA_OK, env.fmtDouble x)
  | .int_ _ i => (SA_OK, intDigits i)
  | .date_ _ s u => (SA_OK, dumpDate env s u)
  | .string_ _ s => (SA_OK, (_sa_dump_string s).2)
  | .list_ _ ch => (SA_OK, [91] ++ dumpItems env ch ++ [93])
  | .dict_ _ ch => (SA_OK, [123] ++ dumpPairs env ch ++ [125])

/-- The child loop of `_sa_dump_list`: comma-joined element dumps. -/
def dumpItems (env : Env) : List SANode → Bytes
  | [] => []
  | c :: rest =>
    (_sa_dump_node env c).2 ++
      (if rest.isEmpty then [] else [44]) ++ dumpItems env rest

/-- The child loop of `_sa_dump_dict`: comma-joined `"key":value`
pairs (the key is dereferenced unconditionally; a NULL key would crash
the C — modelled as the empty name). -/
def dumpPairs (env : Env) : List SANode → Bytes
  | [] => []
  | c :: rest =>
    [34] ++ c.key.getD [] ++ [34, 58] ++ (_sa_dump_node env c).2 ++
      (if rest.isEmpty then [] else [44]) ++ dumpPairs env rest
end

-- EnvelopeBuilder (_sa_track_internal) ----------------------------------------

/-- `"##%s##%s##%ld"` of the call site (`$lib_detail`). -/
def libDetail (function_ file : Bytes) (line : Nat) : Bytes :=
  bs "##" ++ function_ ++ bs "##" ++ file ++ bs "##" ++ natDigits line

/-- The inner `properties` dict immediately before the caller-supplied
copy loop: for types testing positive as track/track_signup, `$lib` and
`$lib_version` are inserted and the SuperPropertyStore's children are
merged in store order; otherwise it is the empty dict. -/
def innerInit (store : SANode) (type_ : Bytes) : SANode :=
  let inner : SANode := .dict_ (some (bs "properties")) []
  if _sa_is_track type_ || _sa_is_track_signup type_ then
    let inner := (sa_add_string (some (bs "$lib")) (bs "C") inner).2
    let inner :=
      (sa_add_string (some (bs "$lib_version")) (bs "0.2.0") inner).2
    addAll store.children inner
  else inner

/-- The `$time` branch body of the copy loop: re-fetch the supplied
dict's first `$time` child and re-insert the envelope `time` field from
its date payload (seconds*1000 + microseconds/1000, C integer
division). -/
def timeAddMsg (su msg : SANode) : SANode :=
  match _sa_get_child (bs "$time") su with
  | some tn =>
    (sa_add_int (some (bs "time"))
      (tn.dateSeconds * 1000 + Int.tdiv tn.dateMicroseconds 1000) msg).2
  | none => msg

/-- The `$project` branch body: re-fetch the supplied dict's first
`$project` child and insert its string payload as the envelope root's
`project` field. -/
def projectAddMsg (su msg : SANode) : SANode :=
  match _sa_get_child (bs "$project") su with
  | some pn => (sa_add_string (some (bs "project")) pn.stringPayload msg).2
  | none => msg

/-- The caller-properties copy loop of `_sa_track_internal` (lines
1325-1357): a `$time`-keyed entry re-inserts the envelope's `time`
field, a `$project`-keyed entry inserts a `project` string into the
envelope root, every other entry is adopted into the inner dict.
Returns (envelope, inner). -/
def copyProps (su : SANode) : List SANode → SANode → SANode →
    SANode × SANode
  | [], msg, inner => (msg, inner)
  | c :: rest, msg, inner =>
    if keyMatch c.key (bs "$time") then
      copyProps su rest (timeAddMsg su msg) inner
    else if keyMatch c.key (bs "$project") then
      copyProps su rest (projectAddMsg su msg) inner
    else copyProps su rest msg (_sa_add_child c inner)

/-- The `lib` metadata dict of `_sa_track_internal`. -/
def libDict (file function_ : Bytes) (line : Nat) : SANode :=
  let lib : SANode := .dict_ (some (bs "lib")) []
  let lib := (sa_add_string (some (bs "$lib")) (bs "C") lib).2
  let lib := (sa_add_string (some (bs "$lib_version")) (bs "0.2.0") lib).2
  let lib := (sa_add_string (some (bs "$lib_method")) (bs "code") lib).2
  (sa_add_string (some (bs "$lib_detail")) (libDetail function_ file line)
    lib).2

/-- The envelope root just before the caller-properties copy loop:
`type`, `distinct_id`, `original_id` (signup), `event` (track-prefixed
types), `time` from `gettimeofday` (sec*1000 + usec/1000), and the
`lib` dict.  Every insertion is `_sa_add_child`, i.e.
prepend-with-dedup. -/
def baseMsg (env : Env) (distinct_id origin_id : Option Bytes)
    (type_ : Bytes) (event : Option Bytes) (file function_ : Bytes)
    (line : Nat) : SANode :=
  let msg : SANode := .dict_ none []
  let msg := (sa_add_string (some (bs "type")) type_ msg).2
  let msg :=
    (sa_add_string (some (bs "distinct_id")) (distinct_id.getD []) msg).2
  let msg :=
    if _sa_is_track_signup type_ then
      (sa_add_string (some (bs "original_id")) (origin_id.getD []) msg).2
    else msg
  let msg :=
    if _sa_is_track type_ || _sa_is_track_signup type_ then
      (sa_add_string (some (bs "event")) (event.getD []) msg).2
    else msg
  let msg :=
    (sa_add_int (some (bs "time"))
      (env.nowSec * 1000 + Int.tdiv env.nowUsec 1000) msg).2
  _sa_add_child (libDict file function_ line) msg

/-- The envelope-construction part of `_sa_track_internal` (everything
after the legality check and before serialization), POSIX time variant:
the base envelope, then the inner `properties` dict threaded with the
envelope through the caller-properties copy loop and attached last. -/
def buildMsg (env : Env) (store : SANode)
    (distinct_id origin_id : Option Bytes) (type_ : Bytes)
    (event : Option Bytes) (properties : Option SANode)
    (file function_ : Bytes) (line : Nat) : SANode :=
  let msg := baseMsg env distinct_id origin_id type_ event file function_
    line
  let pair :=
    match properties with
    | none => (msg, innerInit store type_)
    | some p => copyProps p p.children msg (innerInit store type_)
  _sa_add_child pair.2 pair.1

/-- `_sa_track_internal`: the legality check gates everything — on
failure the error is returned before any envelope node is created,
nothing is serialized and nothing reaches the consumer.  On success the
envelope is built, dumped and the dump handed to `send`; the result is
(status, bytes handed to Consumer.send, envelope). -/
def _sa_track_internal (env : Env) (send : Bytes → Nat) (store : SANode)
    (distinct_id origin_id : Option Bytes) (type_ : Bytes)
    (event : Option Bytes) (properties : Option SANode)
    (file function_ : Bytes) (line : Nat) :
    Nat × Option Bytes × Option SANode :=
  let res := _sa_check_legality distinct_id origin_id type_ event properties
  if res != SA_OK then (res, none, none)
  else
    let msg := buildMsg env store distinct_id origin_id type_ event
      properties file function_ line
    let out := (_sa_dump_node env msg).2
    (send out, some out, some msg)

-- The public operation wrappers (sensors_analytics.c lines 1385-1564).

def _sa_track (env : Env) (send : Bytes → Nat) (store : SANode)
    (distinct_id : Option Bytes) (event : Option Bytes)
    (properties : Option SANode) (file function_ : Bytes) (line : Nat) :
    Nat × Option Bytes × Option SANode :=
  _sa_track_internal env send store distinct_id none (bs "track") event
    properties file function_ line

def _sa_track_signup (env : Env) (send : Bytes → Nat) (store : SANode)
    (distinct_id origin_id : Option Bytes) (properties : Option SANode)
    (file function_ : Bytes) (line : Nat) :
    Nat × Option Bytes × Option SANode :=
  _sa_track_internal env send store distinct_id origin_id
    (bs "track_signup") (some (bs "$SignUp")) properties file function_ line

def _sa_profile_set (env : Env) (send : Bytes → Nat) (store : SANode)
    (distinct_id : Option Bytes) (properties : Option SANode)
    (file function_ : Bytes) (line : Nat) :
    Nat × Option Bytes × Option SANode :=
  match properties with
  | none => (SA_INVALID_PARAMETER_ERROR, none, none)
  | some p =>
    _sa_track_internal env send store distinct_id none (bs "profile_set")
      none (some p) file function_ line

def _sa_profile_set_once (env : Env) (send : Bytes → Nat) (store : SANode)
    (distinct_id : Option Bytes) (properties : Option SANode)
    (file function_ : Bytes) (line : Nat) :
    Nat × Option Bytes × Option SANode :=
  match properties with
  | none => (SA_INVALID_PARAMETER_ERROR, none, none)
  | some p =>
    _sa_track_internal env send store distinct_id none
      (bs "profile_set_once") none (some p) file function_ line

def _sa_profile_increment (env : Env) (send : Bytes → Nat) (store : SANode)
    (distinct_id : Option Bytes) (properties : Option SANode)
    (file function_ : Bytes) (line : Nat) :
    Nat × Option Bytes × Option SANode :=
  match properties with
  | none => (SA_INVALID_PARAMETER_ERROR, none, none)
  | some p =>
    _sa_track_internal env send store distinct_id none
      (bs "profile_increment") none (some p) file function_ line

def _sa_profile_append (env : Env) (send : Bytes → Nat) (store : SANode)
    (distinct_id : Option Bytes) (properties : Option SANode)
    (file function_ : Bytes) (line : Nat) :
    Nat × Option Bytes × Option SANode :=
  match properties with
  | none => (SA_INVALID_PARAMETER_ERROR, none, none)
  | some p =>
    _sa_track_internal env send store distinct_id none
      (bs "profile_append") none (some p) file function_ line

def _sa_profile_unset (env : Env) (send : Bytes → Nat) (store : SANode)
    (distinct_id : Option Bytes) (key : Option Bytes)
    (file function_ : Bytes) (line : Nat) :
    Nat × Option Bytes × Option SANode :=
  let properties := (sa_add_bool key true sa_init_properties).2
  _sa_track_internal env send store distinct_id none (bs "profile_unset")
    none (some properties) file function_ line

def _sa_profile_delete (env : Env) (send : Bytes → Nat) (store : SANode)
    (distinct_id : Option Bytes) (file function_ : Bytes) (line : Nat) :
    Nat × Option Bytes × Option SANode :=
  _sa_track_internal env send store distinct_id none (bs "profile_delete")
    none (some sa_init_properties) file function_ line

-- Logging consumer ------------------------------------------------------------

/-- `_sa_get_current_date`: note the formula uses `tm_year` (years since
1900) *unscaled* — `tm.tm_year * 10000 + (tm.tm_mon + 1) * 100 +
tm.tm_mday` — although the field's own comment documents the value as
`20170101`-style YYYYMMDD. -/
def _sa_get_current_date (tm : Tm) : Int :=
  tm.year * 10000 + (tm.mon + 1) * 100 + tm.mday

/-- `SALoggingConsumerInter`: the open handle is modelled by the name of
the open file (`none` = closed). -/
structure SALoggingConsumerInter where
  file_name : Bytes
  file_name_prefix : Bytes
  date : Int
  file : Option Bytes

/-- File-system actions issued by a `send`, in order. -/
inductive FileAction where
  | closed (f : Bytes)
  | openedAppend (f : Bytes)
  | wrote (f : Option Bytes) (data : Bytes)
  deriving Repr, DecidableEq

/-- The file-system environment of one `send`: today's local calendar
fields and whether `fopen(..., "a")` succeeds for a given name.  The C
never inspects `fwrite` results, so no write-success input exists. -/
structure FileEnv where
  today : Tm
  openOk : Bytes → Bool

/-- `_sa_logging_consumer_send`: recompute the date; on change, close
the open handle and reopen `<prefix>.log.<date>` in append mode
(failure → `SA_IO_ERROR`); then `fwrite` the event and a newline —
*without checking either fwrite result* — and return `SA_OK`. -/
def _sa_logging_consumer_send (fenv : FileEnv)
    (inter : SALoggingConsumerInter) (event : Bytes) :
    Nat × SALoggingConsumerInter × List FileAction :=
  let date := _sa_get_current_date fenv.today
  if date != inter.date then
    let closeActs :=
      match inter.file with
      | some f => [FileAction.closed f]
      | none => []
    let fname := inter.file_name_prefix ++ bs ".log." ++ intDigits date
    if fenv.openOk fname then
      let inter' : SALoggingConsumerInter :=
        { file_name := fname, file_name_prefix := inter.file_name_prefix,
          date := date, file := some fname }
      (SA_OK, inter',
        closeActs ++ [FileAction.openedAppend fname,
                      FileAction.wrote (some fname) (event ++ [10])])
    else
      (SA_IO_ERROR,
        { file_name := fname, file_name_prefix := inter.file_name_prefix,
          date := date, file := none },
        closeActs)
  else
    (SA_OK, inter, [FileAction.wrote inter.file (event ++ [10])])

-- Helper lemmas about the tree operations -------------------------------------

theorem keyEq_refl (k : Bytes) : keyEq k k = true := by
  simp [keyEq]

theorem keyEq_take_eq {a b : Bytes} (h : keyEq a b = true) :
    a.take 256 = b.take 256 := by
  simpa [keyEq] using h

theorem keyEq_false_take_ne {a b : Bytes} (h : keyEq a b = false) :
    a.take 256 ≠ b.take 256 := by
  simpa [keyEq] using h

/-- Removing by key `kc` does not change the scan for a different key. -/
theorem findKey_removeMatching {kc k : Bytes} (h : keyEq kc k = false) :
    ∀ l : List SANode, findKey k (removeMatching (some kc) l) = findKey k l
  | [] => rfl
  | c :: rest => by
    simp only [removeMatching]
    by_cases hm : keyMatch c.key kc = true
    · simp only [hm, if_true]
      have hck : keyMatch c.key k = false := by
        cases hck : c.key with
        | none => simp [keyMatch]
        | some ck =>
          simp only [keyMatch, hck] at hm ⊢
          by_contra hkk
          simp only [Bool.not_eq_false] at hkk
          exact keyEq_false_take_ne h
            ((keyEq_take_eq hm).symm.trans (keyEq_take_eq hkk))
      rw [findKey_removeMatching h rest, findKey, hck]
      simp
    · simp only [Bool.not_eq_true] at hm
      simp only [hm, if_false, findKey]
      rw [findKey_removeMatching h rest]

/-- Children that match the removed key are all gone. -/
theorem countP_removeMatching_self (k : Bytes) :
    ∀ l : List SANode,
      (removeMatching (some k) l).countP (fun c => keyMatch c.key k) = 0
  | [] => rfl
  | c :: rest => by
    simp only [removeMatching]
    by_cases hm : keyMatch c.key k = true
    · simp [hm, countP_removeMatching_self k rest]
    · simp only [Bool.not_eq_true] at hm
      simp [hm, List.countP_cons, countP_removeMatching_self k rest]

/-- Removal by a key matching nothing is the identity. -/
theorem removeMatching_eq_self {k : Bytes} :
    ∀ {l : List SANode}, (∀ c ∈ l, keyMatch c.key k = false) →
      removeMatching (some k) l = l
  | [], _ => rfl
  | c :: rest, h => by
    have hc := h c (by simp)
    simp only [removeMatching, hc, Bool.false_eq_true, if_false]
    rw [removeMatching_eq_self (fun d hd => h d (by simp [hd]))]

theorem addChild_key (c d : SANode) : (_sa_add_child c d).key = d.key := by
  cases d <;> try rfl
  cases hc : c.key <;> simp only [_sa_add_child, hc] <;> rfl

theorem addChild_isDict {d : SANode} (hd : d.isDict = true) (c : SANode) :
    (_sa_add_child c d).isDict = true := by
  cases d
  case dict_ pk ch =>
    cases hc : c.key <;> simp [_sa_add_child, hc, SANode.isDict]
  all_goals simp [SANode.isDict] at hd

theorem addAll_key (cs : List SANode) (d : SANode) :
    (addAll cs d).key = d.key := by
  induction cs generalizing d with
  | nil => rfl
  | cons c rest ih => rw [addAll, List.foldl_cons, ← addAll, ih, addChild_key]

theorem addAll_isDict {d : SANode} (hd : d.isDict = true)
    (cs : List SANode) : (addAll cs d).isDict = true := by
  induction cs generalizing d with
  | nil => exact hd
  | cons c rest ih =>
    rw [addAll, List.foldl_cons, ← addAll]
    exact ih (addChild_isDict hd c)

/-- Looking up the key just inserted finds the inserted child. -/
theorem get_add_match {d c : SANode} {kc k : Bytes}
    (hd : d.isDict = true) (hc : c.key = some kc) (hk : keyEq kc k = true) :
    _sa_get_child k (_sa_add_child c d) = some c := by
  cases d
  case dict_ pk ch =>
    simp [_sa_add_child, hc, _sa_get_child, findKey, keyMatch, hk]
  all_goals simp [SANode.isDict] at hd

/-- Inserting a child whose key does not match `k` (or has no key at
all) leaves the lookup of `k` unchanged, whatever the parent is. -/
theorem get_add_other {c : SANode} {k : Bytes}
    (h : keyMatch c.key k = false) (d : SANode) :
    _sa_get_child k (_sa_add_child c d) = _sa_get_child k d := by
  cases d with
  | dict_ pk ch =>
    cases hc : c.key with
    | none => simp [_sa_add_child, hc]
    | some kc =>
      simp only [keyMatch, hc] at h
      simp only [_sa_add_child, hc, _sa_get_child, findKey, keyMatch]
      rw [findKey_removeMatching h ch]
      simp [h]
  | list_ pk ch => simp [_sa_add_child, _sa_get_child]
  | bool_ pk b => rfl
  | number_ pk x => rfl
  | int_ pk i => rfl
  | date_ pk s u => rfl
  | string_ pk s => rfl

/-- Folding in children none of which matches `k` leaves the lookup of
`k` unchanged. -/
theorem get_addAll_other {k : Bytes} :
    ∀ {cs : List SANode}, (∀ c ∈ cs, keyMatch c.key k = false) →
      ∀ d : SANode, _sa_get_child k (addAll cs d) = _sa_get_child k d
  | [], _, d => rfl
  | c :: rest, h, d => by
    rw [addAll, List.foldl_cons, ← addAll,
      get_addAll_other (fun e he => h e (by simp [he])),
      get_add_other (h c (by simp))]

/-- Inserting children with fresh keys (all keyed, pairwise
non-matching, matching nothing already present) prepends them in
reverse order: enumeration order is reverse of insertion order. -/
theorem addAll_children_fresh :
    ∀ {cs : List SANode} {d : SANode}, d.isDict = true →
      (∀ c ∈ cs, ∃ kc, c.key = some kc) →
      List.Pairwise
        (fun a b => ∀ kb, b.key = some kb → keyMatch a.key kb = false) cs →
      (∀ e ∈ d.children, ∀ c ∈ cs, ∀ kc, c.key = some kc →
        keyMatch e.key kc = false) →
      (addAll cs d).children = cs.reverse ++ d.children
  | [], d, _, _, _, _ => by simp [addAll]
  | c :: rest, d, hd, hkeys, hpw, hold => by
    obtain ⟨kc, hkc⟩ := hkeys c (by simp)
    cases d
    case bool_ pk b => simp [SANode.isDict] at hd
    case number_ pk x => simp [SANode.isDict] at hd
    case int_ pk i => simp [SANode.isDict] at hd
    case date_ pk s u => simp [SANode.isDict] at hd
    case string_ pk s => simp [SANode.isDict] at hd
    case list_ pk ch => simp [SANode.isDict] at hd
    case dict_ pk ch =>
    rw [addAll, List.foldl_cons, ← addAll]
    have hstep : _sa_add_child c (SANode.dict_ pk ch)
        = SANode.dict_ pk (c :: ch) := by
      simp only [_sa_add_child, hkc]
      rw [removeMatching_eq_self
        (fun e he => hold e (by simpa [SANode.children] using he) c
          (by simp) kc hkc)]
    have h1 : (SANode.dict_ pk (c :: ch)).isDict = true := by
      simp [SANode.isDict]
    have h2 : ∀ e ∈ rest, ∃ ke, e.key = some ke :=
      fun e he => hkeys e (by simp [he])
    have h3 := List.Pairwise.of_cons hpw
    have h4 : ∀ e ∈ (SANode.dict_ pk (c :: ch)).children, ∀ b ∈ rest,
        ∀ kb, b.key = some kb → keyMatch e.key kb = false := by
      intro e he b hb kb hkb
      simp only [SANode.children, List.mem_cons] at he
      rcases he with rfl | he
      · exact (List.pairwise_cons.mp hpw).1 b hb kb hkb
      · exact hold e (by simp [SANode.children, he]) b (by simp [hb]) kb hkb
    rw [hstep, addAll_children_fresh h1 h2 h3 h4]
    simp [SANode.children]

-- Helper lemmas about the copy loop and the base envelope --------------------

/-- The filter the copy loop applies to caller-supplied entries: neither
`$time`- nor `$project`-keyed. -/
def notSpecial (c : SANode) : Bool :=
  !keyMatch c.key (bs "$time") && !keyMatch c.key (bs "$project")

theorem timeAddMsg_eq_some {su tn : SANode}
    (hsu : _sa_get_child (bs "$time") su = some tn) (msg : SANode) :
    timeAddMsg su msg = _sa_add_child
      (.int_ (some (bs "time"))
        (tn.dateSeconds * 1000 + Int.tdiv tn.dateMicroseconds 1000))
      msg := by
  unfold timeAddMsg
  rw [hsu]
  rfl

theorem timeAddMsg_eq_none {su : SANode}
    (hsu : _sa_get_child (bs "$time") su = none) (msg : SANode) :
    timeAddMsg su msg = msg := by
  unfold timeAddMsg
  rw [hsu]

theorem projectAddMsg_eq_some {su pn : SANode}
    (hsu : _sa_get_child (bs "$project") su = some pn) (msg : SANode) :
    projectAddMsg su msg = _sa_add_child
      (.string_ (some (bs "project")) pn.stringPayload) msg := by
  unfold projectAddMsg
  rw [hsu]
  rfl

theorem projectAddMsg_eq_none {su : SANode}
    (hsu : _sa_get_child (bs "$project") su = none) (msg : SANode) :
    projectAddMsg su msg = msg := by
  unfold projectAddMsg
  rw [hsu]

theorem timeAddMsg_isDict {msg : SANode} (su : SANode)
    (hd : msg.isDict = true) : (timeAddMsg su msg).isDict = true := by
  cases hsu : _sa_get_child (bs "$time") su with
  | none => rw [timeAddMsg_eq_none hsu]; exact hd
  | some tn => rw [timeAddMsg_eq_some hsu]; exact addChild_isDict hd _

theorem projectAddMsg_isDict {msg : SANode} (su : SANode)
    (hd : msg.isDict = true) : (projectAddMsg su msg).isDict = true := by
  cases hsu : _sa_get_child (bs "$project") su with
  | none => rw [projectAddMsg_eq_none hsu]; exact hd
  | some pn => rw [projectAddMsg_eq_some hsu]; exact addChild_isDict hd _

/-- `timeAddMsg` touches only the `time` field of the envelope. -/
theorem get_timeAddMsg_other {k : Bytes} (h : keyEq (bs "time") k = false)
    (su msg : SANode) :
    _sa_get_child k (timeAddMsg su msg) = _sa_get_child k msg := by
  cases hsu : _sa_get_child (bs "$time") su with
  | none => rw [timeAddMsg_eq_none hsu]
  | some tn =>
    rw [timeAddMsg_eq_some hsu]
    exact get_add_other (by simp [keyMatch, SANode.key, h]) msg

/-- `projectAddMsg` touches only the `project` field of the envelope. -/
theorem get_projectAddMsg_other {k : Bytes}
    (h : keyEq (bs "project") k = false) (su msg : SANode) :
    _sa_get_child k (projectAddMsg su msg) = _sa_get_child k msg := by
  cases hsu : _sa_get_child (bs "$project") su with
  | none => rw [projectAddMsg_eq_none hsu]
  | some pn =>
    rw [projectAddMsg_eq_some hsu]
    exact get_add_other (by simp [keyMatch, SANode.key, h]) msg

theorem get_timeAddMsg_some {su tn : SANode}
    (hsu : _sa_get_child (bs "$time") su = some tn) {msg : SANode}
    (hd : msg.isDict = true) :
    _sa_get_child (bs "time") (timeAddMsg su msg) =
      some (.int_ (some (bs "time"))
        (tn.dateSeconds * 1000 + Int.tdiv tn.dateMicroseconds 1000)) := by
  rw [timeAddMsg_eq_some hsu]
  exact get_add_match hd rfl (keyEq_refl _)

theorem get_projectAddMsg_some {su pn : SANode}
    (hsu : _sa_get_child (bs "$project") su = some pn) {msg : SANode}
    (hd : msg.isDict = true) :
    _sa_get_child (bs "project") (projectAddMsg su msg) =
      some (.string_ (some (bs "project")) pn.stringPayload) := by
  rw [projectAddMsg_eq_some hsu]
  exact get_add_match hd rfl (keyEq_refl _)

/-- The inner dict produced by the copy loop is exactly the fold of the
non-`$time`, non-`$project` entries over the initial inner dict; the
envelope side never feeds back into it. -/
theorem copy_snd (su : SANode) :
    ∀ (ps : List SANode) (msg inner : SANode),
      (copyProps su ps msg inner).2 = addAll (ps.filter notSpecial) inner
  | [], _, _ => by simp [copyProps, addAll]
  | c :: rest, msg, inner => by
    by_cases h1 : keyMatch c.key (bs "$time") = true
    · simp only [copyProps, h1, if_true, List.filter_cons, notSpecial]
      rw [copy_snd su rest _ inner]
      simp [h1]
    · simp only [Bool.not_eq_true] at h1
      by_cases h2 : keyMatch c.key (bs "$project") = true
      · simp only [copyProps, h1, h2, Bool.false_eq_true, if_false, if_true,
          List.filter_cons, notSpecial]
        rw [copy_snd su rest _ inner]
        simp [h1, h2]
      · simp only [Bool.not_eq_true] at h2
        simp only [copyProps, h1, h2, Bool.false_eq_true, if_false,
          List.filter_cons, notSpecial]
        rw [copy_snd su rest msg]
        simp only [h1, h2, Bool.not_false, Bool.and_self, if_true]
        rw [addAll, addAll, List.foldl_cons]

theorem copy_fst_isDict (su : SANode) :
    ∀ (ps : List SANode) {msg : SANode} (inner : SANode),
      msg.isDict = true → (copyProps su ps msg inner).1.isDict = true
  | [], _, _, hd => hd
  | c :: rest, msg, inner, hd => by
    by_cases h1 : keyMatch c.key (bs "$time") = true
    · simp only [copyProps, h1, if_true]
      exact copy_fst_isDict su rest inner (timeAddMsg_isDict su hd)
    · simp only [Bool.not_eq_true] at h1
      by_cases h2 : keyMatch c.key (bs "$project") = true
      · simp only [copyProps, h1, h2, Bool.false_eq_true, if_false, if_true]
        exact copy_fst_isDict su rest inner (projectAddMsg_isDict su hd)
      · simp only [Bool.not_eq_true] at h2
        simp only [copyProps, h1, h2, Bool.false_eq_true, if_false]
        exact copy_fst_isDict su rest _ hd

/-- The copy loop only ever inserts the keys `time` and `project` into
the envelope root: every other lookup is unchanged. -/
theorem copy_fst_get_other {k : Bytes}
    (ht : keyEq (bs "time") k = false)
    (hp : keyEq (bs "project") k = false) (su : SANode) :
    ∀ (ps : List SANode) (msg inner : SANode),
      _sa_get_child k (copyProps su ps msg inner).1 = _sa_get_child k msg
  | [], _, _ => rfl
  | c :: rest, msg, inner => by
    by_cases h1 : keyMatch c.key (bs "$time") = true
    · simp only [copyProps, h1, if_true]
      rw [copy_fst_get_other ht hp su rest _ inner, get_timeAddMsg_other ht]
    · simp only [Bool.not_eq_true] at h1
      by_cases h2 : keyMatch c.key (bs "$project") = true
      · simp only [copyProps, h1, h2, Bool.false_eq_true, if_false, if_true]
        rw [copy_fst_get_other ht hp su rest _ inner,
          get_projectAddMsg_other hp]
      · simp only [Bool.not_eq_true] at h2
        simp only [copyProps, h1, h2, Bool.false_eq_true, if_false]
        exact copy_fst_get_other ht hp su rest msg _

/-- If no entry of `ps` is `$time`-keyed, the copy loop leaves the
envelope's `time` field untouched. -/
theorem copy_fst_time_none (su : SANode) :
    ∀ (ps : List SANode) (msg inner : SANode),
      (∀ c ∈ ps, keyMatch c.key (bs "$time") = false) →
      _sa_get_child (bs "time") (copyProps su ps msg inner).1 =
        _sa_get_child (bs "time") msg
  | [], _, _, _ => rfl
  | c :: rest, msg, inner, h => by
    have hc := h c (by simp)
    have hrest : ∀ e ∈ rest, keyMatch e.key (bs "$time") = false :=
      fun e he => h e (by simp [he])
    simp only [copyProps, hc, Bool.false_eq_true, if_false]
    by_cases h2 : keyMatch c.key (bs "$project") = true
    · simp only [h2, if_true]
      rw [copy_fst_time_none su rest _ inner hrest,
        get_projectAddMsg_other (by decide)]
    · simp only [Bool.not_eq_true] at h2
      simp only [h2, Bool.false_eq_true, if_false]
      exact copy_fst_time_none su rest msg _ hrest

/-- Once the envelope's `time` field holds the `$time`-derived value,
the rest of the copy loop preserves it. -/
theorem copy_fst_time_preserve {su tn : SANode}
    (hsu : _sa_get_child (bs "$time") su = some tn) :
    ∀ (ps : List SANode) {msg : SANode} (inner : SANode),
      msg.isDict = true →
      _sa_get_child (bs "time") msg = some (.int_ (some (bs "time"))
        (tn.dateSeconds * 1000 + Int.tdiv tn.dateMicroseconds 1000)) →
      _sa_get_child (bs "time") (copyProps su ps msg inner).1 =
        some (.int_ (some (bs "time"))
          (tn.dateSeconds * 1000 + Int.tdiv tn.dateMicroseconds 1000))
  | [], _, _, _, hm => hm
  | c :: rest, msg, inner, hd, hm => by
    by_cases h1 : keyMatch c.key (bs "$time") = true
    · simp only [copyProps, h1, if_true]
      exact copy_fst_time_preserve hsu rest inner
        (timeAddMsg_isDict su hd) (get_timeAddMsg_some hsu hd)
    · simp only [Bool.not_eq_true] at h1
      by_cases h2 : keyMatch c.key (bs "$project") = true
      · simp only [copyProps, h1, h2, Bool.false_eq_true, if_false, if_true]
        refine copy_fst_time_preserve hsu rest inner
          (projectAddMsg_isDict su hd) ?_
        rw [get_projectAddMsg_other (by decide), hm]
      · simp only [Bool.not_eq_true] at h2
        simp only [copyProps, h1, h2, Bool.false_eq_true, if_false]
        exact copy_fst_time_preserve hsu rest _ hd hm

/-- If some entry of `ps` is `$time`-keyed and the supplied dict's first
`$time` child is `tn`, the copy loop ends with the envelope's `time`
field equal to `tn`'s seconds*1000 + microseconds/1000. -/
theorem copy_fst_time_any {su tn : SANode}
    (hsu : _sa_get_child (bs "$time") su = some tn) :
    ∀ (ps : List SANode) {msg : SANode} (inner : SANode),
      msg.isDict = true →
      ps.any (fun c => keyMatch c.key (bs "$time")) = true →
      _sa_get_child (bs "time") (copyProps su ps msg inner).1 =
        some (.int_ (some (bs "time"))
          (tn.dateSeconds * 1000 + Int.tdiv tn.dateMicroseconds 1000))
  | [], _, _, _, hany => by simp at hany
  | c :: rest, msg, inner, hd, hany => by
    by_cases h1 : keyMatch c.key (bs "$time") = true
    · simp only [copyProps, h1, if_true]
      exact copy_fst_time_preserve hsu rest inner
        (timeAddMsg_isDict su hd) (get_timeAddMsg_some hsu hd)
    · simp only [Bool.not_eq_true] at h1
      have hrest : rest.any (fun c => keyMatch c.key (bs "$time")) = true :=
        by simpa [List.any_cons, h1] using hany
      by_cases h2 : keyMatch c.key (bs "$project") = true
      · simp only [copyProps, h1, h2, Bool.false_eq_true, if_false, if_true]
        exact copy_fst_time_any hsu rest inner
          (projectAddMsg_isDict su hd) hrest
      · simp only [Bool.not_eq_true] at h2
        simp only [copyProps, h1, h2, Bool.false_eq_true, if_false]
        exact copy_fst_time_any hsu rest _ hd hrest

/-- Once the envelope's `project` field holds the `$project`-derived
string, the rest of the copy loop preserves it. -/
theorem copy_fst_project_preserve {su pn : SANode}
    (hsu : _sa_get_child (bs "$project") su = some pn) :
    ∀ (ps : List SANode) {msg : SANode} (inner : SANode),
      msg.isDict = true →
      _sa_get_child (bs "project") msg =
        some (.string_ (some (bs "project")) pn.stringPayload) →
      _sa_get_child (bs "project") (copyProps su ps msg inner).1 =
        some (.string_ (some (bs "project")) pn.stringPayload)
  | [], _, _, _, hm => hm
  | c :: rest, msg, inner, hd, hm => by
    by_cases h1 : keyMatch c.key (bs "$time") = true
    · simp only [copyProps, h1, if_true]
      refine copy_fst_project_preserve hsu rest inner
        (timeAddMsg_isDict su hd) ?_
      rw [get_timeAddMsg_other (by decide), hm]
    · simp only [Bool.not_eq_true] at h1
      by_cases h2 : keyMatch c.key (bs "$project") = true
      · simp only [copyProps, h1, h2, Bool.false_eq_true, if_false, if_true]
        exact copy_fst_project_preserve hsu rest inner
          (projectAddMsg_isDict su hd) (get_projectAddMsg_some hsu hd)
      · simp only [Bool.not_eq_true] at h2
        simp only [copyProps, h1, h2, Bool.false_eq_true, if_false]
        exact copy_fst_project_preserve hsu rest _ hd hm

/-- If some entry of `ps` is `$project`-keyed and the supplied dict's
first `$project` child is `pn`, the copy loop ends with the envelope's
`project` field equal to `pn`'s string payload. -/
theorem copy_fst_project_any {su pn : SANode}
    (hsu : _sa_get_child (bs "$project") su = some pn) :
    ∀ (ps : List SANode) {msg : SANode} (inner : SANode),
      msg.isDict = true →
      ps.any (fun c => keyMatch c.key (bs "$project")) = true →
      _sa_get_child (bs "project") (copyProps su ps msg inner).1 =
        some (.string_ (some (bs "project")) pn.stringPayload)
  | [], _, _, _, hany => by simp at hany
  | c :: rest, msg, inner, hd, hany => by
    by_cases h2 : keyMatch c.key (bs "$project") = true
    · have h1 : keyMatch c.key (bs "$time") = false := by
        cases hck : c.key with
        | none => simp [keyMatch]
        | some ck =>
          simp only [keyMatch, hck] at h2 ⊢
          by_contra hkk
          simp only [Bool.not_eq_false] at hkk
          have := (keyEq_take_eq h2).symm.trans (keyEq_take_eq hkk)
          simp [bs] at this
      simp only [copyProps, h1, h2, Bool.false_eq_true, if_false, if_true]
      exact copy_fst_project_preserve hsu rest inner
        (projectAddMsg_isDict su hd) (get_projectAddMsg_some hsu hd)
    · simp only [Bool.not_eq_true] at h2
      have hrest : rest.any (fun c => keyMatch c.key (bs "$project")) =
          true := by simpa [List.any_cons, h2] using hany
      by_cases h1 : keyMatch c.key (bs "$time") = true
      · simp only [copyProps, h1, if_true]
        exact copy_fst_project_any hsu rest inner
          (timeAddMsg_isDict su hd) hrest
      · simp only [Bool.not_eq_true] at h1
        simp only [copyProps, h1, h2, Bool.false_eq_true, if_false]
        exact copy_fst_project_any hsu rest _ hd hrest

-- Helper lemmas about the base envelope and inner dict -----------------------

theorem libDict_key (file function_ : Bytes) (line : Nat) :
    (libDict file function_ line).key = some (bs "lib") := by
  simp only [libDict, sa_add_string, addChild_key]
  rfl

theorem innerInit_key (store : SANode) (type_ : Bytes) :
    (innerInit store type_).key = some (bs "properties") := by
  unfold innerInit
  split
  · rw [addAll_key]
    simp only [sa_add_string, addChild_key]
    rfl
  · rfl

theorem innerInit_isDict (store : SANode) (type_ : Bytes) :
    (innerInit store type_).isDict = true := by
  unfold innerInit
  split
  · apply addAll_isDict
    simp only [sa_add_string]
    apply addChild_isDict
    apply addChild_isDict
    rfl
  · rfl

/-- A lookup matching neither `$lib` nor `$lib_version` nor any store
child finds nothing in the initial inner dict. -/
theorem get_innerInit_other {k : Bytes} (h1 : keyEq (bs "$lib") k = false)
    (h2 : keyEq (bs "$lib_version") k = false) {store : SANode}
    (hs : ∀ c ∈ store.children, keyMatch c.key k = false)
    (type_ : Bytes) : _sa_get_child k (innerInit store type_) = none := by
  unfold innerInit
  split
  · simp only [sa_add_string]
    rw [get_addAll_other hs, get_add_other (by simp [keyMatch, SANode.key, h2]),
      get_add_other (by simp [keyMatch, SANode.key, h1])]
    rfl
  · rfl

theorem baseMsg_isDict (env : Env) (d o : Option Bytes) (t : Bytes)
    (e : Option Bytes) (f fn : Bytes) (l : Nat) :
    (baseMsg env d o t e f fn l).isDict = true := by
  unfold baseMsg
  simp only [sa_add_string, sa_add_int]
  repeat' (first | rfl | apply addChild_isDict | split)

/-- The base envelope's `time` field holds the wall-clock epoch
milliseconds computed from `gettimeofday`. -/
theorem baseMsg_get_time (env : Env) (d o : Option Bytes) (t : Bytes)
    (e : Option Bytes) (f fn : Bytes) (l : Nat) :
    _sa_get_child (bs "time") (baseMsg env d o t e f fn l) =
      some (.int_ (some (bs "time"))
        (env.nowSec * 1000 + Int.tdiv env.nowUsec 1000)) := by
  unfold baseMsg
  simp only [sa_add_string, sa_add_int]
  have hlib : keyMatch (libDict f fn l).key (bs "time") = false := by
    rw [keyMatch.eq_def, libDict_key]
    decide
  rw [get_add_other hlib]
  refine get_add_match ?_ rfl (keyEq_refl _)
  repeat' (first | rfl | apply addChild_isDict | split)

/-- For types that test neither track nor track_signup, the base
envelope carries no `event` field. -/
theorem baseMsg_get_event_none (env : Env) (d o : Option Bytes)
    {t : Bytes} (hT : _sa_is_track t = false)
    (hS : _sa_is_track_signup t = false) (e : Option Bytes) (f fn : Bytes)
    (l : Nat) :
    _sa_get_child (bs "event") (baseMsg env d o t e f fn l) = none := by
  unfold baseMsg
  simp only [sa_add_string, sa_add_int, hT, hS, Bool.or_self,
    Bool.false_eq_true, if_false]
  have hlib : keyMatch (libDict f fn l).key (bs "event") = false := by
    rw [keyMatch.eq_def, libDict_key]
    decide
  have htime : keyMatch (SANode.int_ (some (bs "time"))
      (env.nowSec * 1000 + Int.tdiv env.nowUsec 1000)).key
      (bs "event") = false := by
    show keyMatch (some (bs "time")) (bs "event") = false
    decide
  have hdist : keyMatch (SANode.string_ (some (bs "distinct_id"))
      (d.getD [])).key (bs "event") = false := by
    show keyMatch (some (bs "distinct_id")) (bs "event") = false
    decide
  have htype : keyMatch (SANode.string_ (some (bs "type")) t).key
      (bs "event") = false := by
    show keyMatch (some (bs "type")) (bs "event") = false
    decide
  rw [get_add_other hlib, get_add_other htime, get_add_other hdist,
    get_add_other htype]
  rfl

theorem buildMsg_eq_some (env : Env) (store : SANode)
    (d o : Option Bytes) (t : Bytes) (e : Option Bytes) {properties}
    {P : SANode} (hP : properties = some P) (f fn : Bytes) (l : Nat) :
    buildMsg env store d o t e properties f fn l =
      _sa_add_child
        (copyProps P P.children (baseMsg env d o t e f fn l)
          (innerInit store t)).2
        (copyProps P P.children (baseMsg env d o t e f fn l)
          (innerInit store t)).1 := by
  unfold buildMsg
  rw [hP]

theorem copy_snd_key (su : SANode) (ps : List SANode)
    (msg : SANode) (store : SANode) (t : Bytes) :
    (copyProps su ps msg (innerInit store t)).2.key =
      some (bs "properties") := by
  rw [copy_snd, addAll_key, innerInit_key]

/-- The `properties` field of the finished envelope is the inner dict
that came out of the copy loop. -/
theorem get_buildMsg_properties (env : Env) (store : SANode)
    (d o : Option Bytes) (t : Bytes) (e : Option Bytes) {P : SANode}
    (f fn : Bytes) (l : Nat) :
    _sa_get_child (bs "properties")
        (buildMsg env store d o t e (some P) f fn l) =
      some (copyProps P P.children (baseMsg env d o t e f fn l)
        (innerInit store t)).2 := by
  rw [buildMsg_eq_some env store d o t e rfl f fn l]
  exact get_add_match
    (copy_fst_isDict P P.children _ (baseMsg_isDict env d o t e f fn l))
    (copy_snd_key P P.children _ store t) (keyEq_refl _)

-- Helper lemmas about the legality check --------------------------------------

theorem checkPropList_ok_or_err (l : List SANode) :
    checkPropList l = SA_OK ∨ checkPropList l = SA_INVALID_PARAMETER_ERROR
    := by
  induction l with
  | nil => left; rfl
  | cons c rest ih =>
    unfold checkPropList
    split
    · right; rfl
    · exact ih

theorem checkPropList_bad :
    ∀ {l : List SANode}, (∃ c ∈ l, c.key = none ∨
        _sa_assert_key_name c.key ≠ SA_OK) →
      checkPropList l = SA_INVALID_PARAMETER_ERROR
  | [], h => by simp at h
  | c :: rest, h => by
    unfold checkPropList
    split
    · rfl
    · rename_i hcond
      rcases h with ⟨b, hb, hbad⟩
      simp only [Bool.or_eq_true, Option.isNone_iff_eq_none, bne_iff_ne,
        not_or, Bool.not_eq_true] at hcond
      push_neg at hcond
      rcases List.mem_cons.mp hb with rfl | hbrest
      · rcases hbad with hk | hk
        · exact absurd hk hcond.1
        · exact absurd hcond.2 hk
      · exact checkPropList_bad ⟨b, hbrest, hbad⟩

theorem check_legality_ok_or_err (d o : Option Bytes) (t : Bytes)
    (e : Option Bytes) (props : Option SANode) :
    _sa_check_legality d o t e props = SA_OK ∨
      _sa_check_legality d o t e props = SA_INVALID_PARAMETER_ERROR := by
  unfold _sa_check_legality
  split
  · right; rfl
  · split
    · right; rfl
    · split
      · right; rfl
      · cases props with
        | none => left; rfl
        | some P => exact checkPropList_ok_or_err P.children

theorem matchNamePattern_length {n : Bytes}
    (h : matchNamePattern n = true) : n.length ≤ 100 := by
  cases n with
  | nil => simp [matchNamePattern] at h
  | cons b rest =>
    simp only [matchNamePattern, Bool.and_eq_true, decide_eq_true_eq] at h
    simp only [List.length_cons]
    omega

-- Miscellaneous supporting lemmas ---------------------------------------------

theorem findKey_some_any {k : Bytes} :
    ∀ {l : List SANode} {v : SANode}, findKey k l = some v →
      l.any (fun c => keyMatch c.key k) = true
  | [], v, h => by simp [findKey] at h
  | c :: rest, v, h => by
    rw [findKey] at h
    by_cases hm : keyMatch c.key k = true
    · simp [List.any_cons, hm]
    · simp only [Bool.not_eq_true] at hm
      simp only [hm, Bool.false_eq_true, if_false] at h
      simp [List.any_cons, findKey_some_any h]

/-- A successful `_sa_get_child` means some child's key matches. -/
theorem get_child_some_any {k : Bytes} {p v : SANode}
    (h : _sa_get_child k p = some v) :
    p.children.any (fun c => keyMatch c.key k) = true := by
  cases p with
  | dict_ pk ch => exact findKey_some_any h
  | list_ pk ch => simp [_sa_get_child] at h
  | bool_ pk b => simp [_sa_get_child] at h
  | number_ pk x => simp [_sa_get_child] at h
  | int_ pk i => simp [_sa_get_child] at h
  | date_ pk a b => simp [_sa_get_child] at h
  | string_ pk a => simp [_sa_get_child] at h

/-- An invalid sequence never starts with an ASCII byte. -/
theorem cz_zero_ge {b : Nat} {rest : Bytes}
    (h : sa_utf8_validate_cz (b :: rest) = 0) : 128 ≤ b := by
  by_contra hb
  push_neg at hb
  have h1 : sa_utf8_validate_cz (b :: rest) = 1 := by
    unfold sa_utf8_validate_cz
    have : (b :: rest).getD 0 0 = b := rfl
    rw [this, if_pos (by omega)]
  omega

-- Decimal decoding (used to state that zero-padding preserves the
-- printed value).

/-- Read decimal digit bytes back into the number they denote. -/
def decodeDigits (ds : Bytes) : Nat :=
  ds.foldl (fun a d => a * 10 + (d - 48)) 0

theorem decode_natDigits (n : Nat) :
    ∀ a : Nat, List.foldl (fun a d => a * 10 + (d - 48)) a (natDigits n) =
      a * 10 ^ (natDigits n).length + n := by
  induction n using Nat.strong_induction_on with
  | _ n ih =>
    intro a
    by_cases h : n < 10
    · rw [natDigits, dif_pos h]
      simp only [List.foldl_cons, List.foldl_nil, List.length_cons,
        List.length_nil, pow_one]
      omega
    · rw [natDigits, dif_neg h, List.foldl_append,
        ih (n / 10) (Nat.div_lt_self (by omega) (by norm_num)) a]
      simp only [List.foldl_cons, List.foldl_nil, List.length_append,
        List.length_cons, List.length_nil]
      have hmod : 48 + n % 10 - 48 = n % 10 := by omega
      rw [hmod, pow_succ]
      have hdm := Nat.div_add_mod n 10
      set L := (natDigits (n / 10)).length
      ring_nf
      ring_nf at hdm ⊢
      omega

theorem decode_padNat (w n : Nat) : decodeDigits (padNat w n) = n := by
  unfold decodeDigits padNat
  rw [List.foldl_append]
  have hz : ∀ c : Nat, List.foldl (fun a d => a * 10 + (d - 48)) 0
      (List.replicate c 48) = 0 := by
    intro c
    induction c with
    | zero => rfl
    | succ c ih => simpa [List.replicate_succ] using ih
  rw [hz]
  simpa using decode_natDigits n 0

theorem padNat_length (w n : Nat) : w ≤ (padNat w n).length := by
  unfold padNat
  simp only [List.length_append, List.length_replicate]
  omega

-- Validator characterization lemmas -------------------------------------------

theorem matchKeyWord_iff (k : Bytes) :
    matchKeyWord k = true ↔ (k.map toLowerByte) ∈ keyWords := by
  simp only [matchKeyWord, List.any_eq_true, beq_iff_eq]
  constructor
  · rintro ⟨w, hw, rfl⟩
    exact hw
  · intro h
    exact ⟨k.map toLowerByte, h, rfl⟩

theorem matchNamePattern_iff (n : Bytes) :
    matchNamePattern n = true ↔
      (match n with
       | [] => False
       | b :: rest =>
         isNameHead b = true ∧ (∀ c ∈ rest, isNameTail c = true) ∧
         rest.length ≤ 99) := by
  cases n with
  | nil => simp [matchNamePattern]
  | cons b rest =>
    simp [matchNamePattern, List.all_eq_true, and_assoc]

/-- Decomposition of `_sa_assert_key_name` into its three checks. -/
theorem assert_key_name_iff (n : Bytes) :
    _sa_assert_key_name (some n) = SA_OK ↔
      (1 ≤ n.length ∧ n.length ≤ 255 ∧ matchKeyWord n = false ∧
        matchNamePattern n = true) := by
  unfold _sa_assert_key_name
  simp only [optLen]
  split
  · rename_i hlen
    simp only [Bool.or_eq_true, decide_eq_true_eq] at hlen
    constructor
    · intro h
      exact absurd h (by decide)
    · rintro ⟨h1, h2, -⟩
      omega
  · rename_i hlen
    simp only [Bool.or_eq_true, decide_eq_true_eq, not_or] at hlen
    push_neg at hlen
    split
    · rename_i hkw
      constructor
      · intro h
        exact absurd h (by decide)
      · rintro ⟨-, -, hk, -⟩
        rw [hk] at hkw
        exact absurd hkw (by decide)
    · rename_i hkw
      simp only [Bool.not_eq_true] at hkw
      split
      · rename_i hnp
        simp only [Bool.not_eq_true', Bool.not_eq_false] at hnp
        constructor
        · intro h
          exact absurd h (by decide)
        · rintro ⟨-, -, -, hp⟩
          rw [hp] at hnp
          exact absurd hnp (by decide)
      · rename_i hnp
        simp only [Bool.not_eq_true', Bool.not_eq_false,
          Bool.not_eq_true] at hnp
        constructor
        · intro h
          exact ⟨by omega, by omega, hkw, by simpa using hnp⟩
        · intro h
          rfl

-- Shared witness fixtures ------------------------------------------------------

/-- A concrete environment for witness instantiations: localtime maps
everything to 2017-01-01 02:03:04 (`tm_year = 117`), the wall clock is
1500000000s + 123999us. -/
def env0 : Env :=
  { nowSec := 1500000000, nowUsec := 123999,
    localtime := fun _ => ⟨117, 0, 1, 2, 3, 4⟩,
    fmtDouble := fun _ => [] }

/-- A consumer send stub that always succeeds. -/
def okSend : Bytes → Nat := fun _ => SA_OK

/-- An empty super-property store. -/
def store0 : SANode := .dict_ (some (bs "properties")) []

-- Claims -----------------------------------------------------------------------

/-- C1: adding a child with key `k` into a dict `d` first removes all
existing children whose key equals `k` (strncmp-256 equality) and then
prepends the new child; immediately afterwards `_sa_get_child` returns
the new child, exactly one child with key `k` is visible, and folding
in children with fresh pairwise-distinct keys enumerates them in
reverse insertion order. -/
theorem c1_add_child_dedup_prepend (d c : SANode) (k : Bytes)
    (hd : d.isDict = true) (hc : c.key = some k) :
    (_sa_add_child c d).children = c :: removeMatching (some k) d.children
    ∧ _sa_get_child k (_sa_add_child c d) = some c
    ∧ ((_sa_add_child c d).children.countP
        (fun e => keyMatch e.key k)) = 1
    ∧ (∀ cs : List SANode,
        (∀ e ∈ cs, ∃ ke, e.key = some ke) →
        List.Pairwise (fun a b => ∀ kb, b.key = some kb →
          keyMatch a.key kb = false) cs →
        (∀ e ∈ d.children, ∀ x ∈ cs, ∀ kx, x.key = some kx →
          keyMatch e.key kx = false) →
        (addAll cs d).children = cs.reverse ++ d.children) := by
  have hch : (_sa_add_child c d).children =
      c :: removeMatching (some k) d.children := by
    cases d
    case dict_ pk ch => simp [_sa_add_child, hc, SANode.children]
    all_goals simp [SANode.isDict] at hd
  refine ⟨hch, get_add_match hd hc (keyEq_refl k), ?_, ?_⟩
  · rw [hch, List.countP_cons, countP_removeMatching_self]
    have hck : keyMatch c.key k = true := by
      rw [hc]
      exact keyEq_refl k
    simp [hck]
  · intro cs h1 h2 h3
    exact addAll_children_fresh hd h1 h2 h3

/-- C1 witness: inserting key `a` over a dict that already holds an `a`
and a `b` entry: the old `a` is removed, the new child is prepended and
found, exactly one `a` remains; inserting fresh keys `x`, `y` over the
result enumerates `y, x` before the older children. -/
theorem c1_witness :
    ((SANode.dict_ none [.bool_ (some (bs "a")) false,
        .int_ (some (bs "b")) 7]).isDict = true
      ∧ (SANode.bool_ (some (bs "a")) true).key = some (bs "a"))
    ∧ ((_sa_add_child (.bool_ (some (bs "a")) true)
          (.dict_ none [.bool_ (some (bs "a")) false,
            .int_ (some (bs "b")) 7])).children =
        .bool_ (some (bs "a")) true ::
          removeMatching (some (bs "a"))
            (SANode.dict_ none [.bool_ (some (bs "a")) false,
              .int_ (some (bs "b")) 7]).children
      ∧ _sa_get_child (bs "a")
          (_sa_add_child (.bool_ (some (bs "a")) true)
            (.dict_ none [.bool_ (some (bs "a")) false,
              .int_ (some (bs "b")) 7])) =
          some (.bool_ (some (bs "a")) true)
      ∧ ((_sa_add_child (.bool_ (some (bs "a")) true)
            (.dict_ none [.bool_ (some (bs "a")) false,
              .int_ (some (bs "b")) 7])).children.countP
          (fun e => keyMatch e.key (bs "a"))) = 1
      ∧ (∀ cs : List SANode,
          (∀ e ∈ cs, ∃ ke, e.key = some ke) →
          List.Pairwise (fun a b => ∀ kb, b.key = some kb →
            keyMatch a.key kb = false) cs →
          (∀ e ∈ (SANode.dict_ none [.bool_ (some (bs "a")) false,
              .int_ (some (bs "b")) 7]).children, ∀ x ∈ cs, ∀ kx,
            x.key = some kx → keyMatch e.key kx = false) →
          (addAll cs (.dict_ none [.bool_ (some (bs "a")) false,
            .int_ (some (bs "b")) 7])).children =
            cs.reverse ++ (SANode.dict_ none [.bool_ (some (bs "a")) false,
              .int_ (some (bs "b")) 7]).children)) :=
  ⟨⟨rfl, rfl⟩,
   c1_add_child_dedup_prepend _ _ (bs "a") rfl rfl⟩

/-- C5: `_sa_assert_key_name` accepts a name exactly when its byte
length is in [1,255], it is not a case-insensitive match of a reserved
word, and it matches `^[a-zA-Z_$][a-zA-Z0-9_$]{0,99}$`; consequently
every name of byte length 101..255 is rejected. -/
theorem c5_name_validator (n : Bytes) :
    (_sa_assert_key_name (some n) = SA_OK ↔ nameValidatorSpec n)
    ∧ (101 ≤ n.length → _sa_assert_key_name (some n) ≠ SA_OK) := by
  constructor
  · rw [assert_key_name_iff]
    unfold nameValidatorSpec
    constructor
    · rintro ⟨h1, h2, hk, hp⟩
      refine ⟨h1, h2, ?_, (matchNamePattern_iff n).mp hp⟩
      intro hm
      rw [(matchKeyWord_iff n).mpr hm] at hk
      exact absurd hk (by decide)
    · rintro ⟨h1, h2, hk, hp⟩
      refine ⟨h1, h2, ?_, (matchNamePattern_iff n).mpr hp⟩
      cases hq : matchKeyWord n
      · rfl
      · exact absurd ((matchKeyWord_iff n).mp hq) hk
  · intro hlen heq
    obtain ⟨-, -, -, hp⟩ := (assert_key_name_iff n).mp heq
    have := matchNamePattern_length hp
    omega

/-- C5 witness: a 101-byte name of `a`s is rejected even though its
length is within [1,255]. -/
theorem c5_witness :
    101 ≤ (List.replicate 101 97 : Bytes).length
    ∧ _sa_assert_key_name (some (List.replicate 101 97)) ≠ SA_OK :=
  ⟨by simp, (c5_name_validator (List.replicate 101 97)).2 (by simp)⟩

/-- C10: every scalar property builder called with a NULL key on a
(non-NULL) dict returns `SA_OK` while adopting nothing: the dict is
returned unchanged. -/
theorem c10_null_key_builders (props : SANode) (hd : props.isDict = true)
    (b : Bool) (x : Nat) (i : Int) (sec usec : Int) (str : Bytes) :
    sa_add_bool none b props = (SA_OK, props)
    ∧ sa_add_number none x props = (SA_OK, props)
    ∧ sa_add_int none i props = (SA_OK, props)
    ∧ sa_add_date none sec usec props = (SA_OK, props)
    ∧ sa_add_string none str props = (SA_OK, props) := by
  cases props
  case dict_ pk ch => exact ⟨rfl, rfl, rfl, rfl, rfl⟩
  all_goals simp [SANode.isDict] at hd

/-- C10 witness: a NULL-keyed `sa_add_bool`/`sa_add_string` on a
one-entry dict returns `SA_OK` and leaves the children unchanged. -/
theorem c10_witness :
    (SANode.dict_ (some (bs "properties"))
        [.bool_ (some (bs "a")) true]).isDict = true
    ∧ sa_add_bool none true
        (.dict_ (some (bs "properties")) [.bool_ (some (bs "a")) true]) =
      (SA_OK, .dict_ (some (bs "properties")) [.bool_ (some (bs "a")) true])
    ∧ sa_add_string none (bs "v")
        (.dict_ (some (bs "properties")) [.bool_ (some (bs "a")) true]) =
      (SA_OK, .dict_ (some (bs "properties"))
        [.bool_ (some (bs "a")) true]) := by
  refine ⟨rfl, ?_, ?_⟩
  · exact (c10_null_key_builders
      (.dict_ (some (bs "properties")) [.bool_ (some (bs "a")) true])
      rfl true 0 0 0 0 (bs "v")).1
  · exact (c10_null_key_builders
      (.dict_ (some (bs "properties")) [.bool_ (some (bs "a")) true])
      rfl true 0 0 0 0 (bs "v")).2.2.2.2

/-- C2: each failing validation check (distinct id length, signup origin
id length, track event name, any supplied property key) makes
`_sa_check_legality` return the invalid-parameter error, and whenever
the legality check fails `_sa_track_internal` returns that error having
built no envelope and handed nothing to the consumer (and, the model
being pure, having changed no shared state). -/
theorem c2_validation_gates (env : Env) (send : Bytes → Nat)
    (store : SANode) (d o : Option Bytes) (t : Bytes) (e : Option Bytes)
    (props : Option SANode) (f fn : Bytes) (l : Nat) :
    ((optLen d < 1 ∨ 255 < optLen d) →
      _sa_check_legality d o t e props = SA_INVALID_PARAMETER_ERROR)
    ∧ (_sa_is_track_signup t = true → (optLen o < 1 ∨ 255 < optLen o) →
      _sa_check_legality d o t e props = SA_INVALID_PARAMETER_ERROR)
    ∧ (_sa_is_track t = true → _sa_assert_key_name e ≠ SA_OK →
      _sa_check_legality d o t e props = SA_INVALID_PARAMETER_ERROR)
    ∧ (∀ P, props = some P →
      (∃ c ∈ P.children, c.key = none ∨
        _sa_assert_key_name c.key ≠ SA_OK) →
      _sa_check_legality d o t e props = SA_INVALID_PARAMETER_ERROR)
    ∧ (_sa_check_legality d o t e props ≠ SA_OK →
      _sa_track_internal env send store d o t e props f fn l =
        (SA_INVALID_PARAMETER_ERROR, none, none)) := by
  refine ⟨?_, ?_, ?_, ?_, ?_⟩
  · intro h
    have hb : (decide (optLen d < 1) || decide (255 < optLen d)) = true :=
      by rcases h with h | h <;> simp [h]
    unfold _sa_check_legality
    rw [hb]
    rfl
  · intro hs h
    have hb : (_sa_is_track_signup t &&
        (decide (optLen o < 1) || decide (255 < optLen o))) = true := by
      rcases h with h | h <;> simp [hs, h]
    unfold _sa_check_legality
    rw [hb]
    cases h1 : (decide (optLen d < 1) || decide (255 < optLen d)) <;> rfl
  · intro ht ha
    have hb : (_sa_is_track t &&
        (e.isNone || (_sa_assert_key_name e != SA_OK))) = true := by
      simp [ht, bne_iff_ne, ha]
    unfold _sa_check_legality
    rw [hb]
    cases h1 : (decide (optLen d < 1) || decide (255 < optLen d)) <;>
      cases h2 : (_sa_is_track_signup t &&
        (decide (optLen o < 1) || decide (255 < optLen o))) <;> rfl
  · intro P hP hbad
    subst hP
    have hlist := checkPropList_bad hbad
    unfold _sa_check_legality
    cases h1 : (decide (optLen d < 1) || decide (255 < optLen d)) <;>
      cases h2 : (_sa_is_track_signup t &&
        (decide (optLen o < 1) || decide (255 < optLen o))) <;>
      cases h3 : (_sa_is_track t &&
        (e.isNone || (_sa_assert_key_name e != SA_OK))) <;>
      first
        | exact hlist
        | rfl
  · intro hne
    have hb : (_sa_check_legality d o t e props != SA_OK) = true := by
      simp [bne_iff_ne, hne]
    rcases check_legality_ok_or_err d o t e props with hok | herr
    · exact absurd hok hne
    · simp only [_sa_track_internal, hb, if_true, herr]
      rfl

/-- C2 witness: an empty distinct id fails the length check and the
whole call returns the invalid-parameter error with no envelope and
nothing sent. -/
theorem c2_witness :
    (optLen (some ([] : Bytes)) < 1 ∨ 255 < optLen (some ([] : Bytes)))
    ∧ _sa_check_legality (some []) none (bs "track") (some (bs "ev")) none
        = SA_INVALID_PARAMETER_ERROR
    ∧ _sa_track_internal env0 okSend store0 (some []) none (bs "track")
        (some (bs "ev")) none (bs "demo.c") (bs "main") 1 =
      (SA_INVALID_PARAMETER_ERROR, none, none) := by
  have h := c2_validation_gates env0 okSend store0 (some []) none
    (bs "track") (some (bs "ev")) none (bs "demo.c") (bs "main") 1
  have h1 := h.1 (Or.inl (by decide))
  refine ⟨Or.inl (by decide), h1, h.2.2.2.2 ?_⟩
  rw [h1]
  decide

/-- The six profile operation types. -/
def profileTypes : List Bytes :=
  [bs "profile_set", bs "profile_set_once", bs "profile_increment",
   bs "profile_append", bs "profile_unset", bs "profile_delete"]

theorem profile_not_track {t : Bytes} (ht : t ∈ profileTypes) :
    _sa_is_track t = false ∧ _sa_is_track_signup t = false := by
  simp only [profileTypes, List.mem_cons, List.mem_singleton] at ht
  rcases ht with rfl | rfl | rfl | rfl | rfl | ht
  · exact ⟨by decide, by decide⟩
  · exact ⟨by decide, by decide⟩
  · exact ⟨by decide, by decide⟩
  · exact ⟨by decide, by decide⟩
  · exact ⟨by decide, by decide⟩
  · simp only [List.mem_singleton, List.not_mem_nil, or_false] at ht
    subst ht
    exact ⟨by decide, by decide⟩

/-- C6: for every profile operation type and every state of the
SuperPropertyStore the built envelope has no `event` field, and the
envelope does not depend on the store at all (so no store entry can
appear in the inner properties dict). -/
theorem c6_profile_ops (env : Env) (store1 store2 : SANode)
    (d o : Option Bytes) {t : Bytes} (ht : t ∈ profileTypes)
    (e : Option Bytes) (props : Option SANode) (f fn : Bytes) (l : Nat) :
    _sa_get_child (bs "event")
        (buildMsg env store1 d o t e props f fn l) = none
    ∧ buildMsg env store1 d o t e props f fn l =
        buildMsg env store2 d o t e props f fn l := by
  obtain ⟨hT, hS⟩ := profile_not_track ht
  constructor
  · cases props with
    | none =>
      show _sa_get_child (bs "event")
        (_sa_add_child (innerInit store1 t)
          (baseMsg env d o t e f fn l)) = none
      have hkey : keyMatch (innerInit store1 t).key (bs "event") = false :=
        by rw [keyMatch.eq_def, innerInit_key]; decide
      rw [get_add_other hkey]
      exact baseMsg_get_event_none env d o hT hS e f fn l
    | some P =>
      show _sa_get_child (bs "event")
        (_sa_add_child
          (copyProps P P.children (baseMsg env d o t e f fn l)
            (innerInit store1 t)).2
          (copyProps P P.children (baseMsg env d o t e f fn l)
            (innerInit store1 t)).1) = none
      have hkey : keyMatch
          (copyProps P P.children (baseMsg env d o t e f fn l)
            (innerInit store1 t)).2.key (bs "event") = false := by
        rw [keyMatch.eq_def, copy_snd_key]
        decide
      rw [get_add_other hkey,
        copy_fst_get_other (by decide) (by decide)]
      exact baseMsg_get_event_none env d o hT hS e f fn l
  · unfold buildMsg innerInit
    simp only [hT, hS, Bool.or_self, Bool.false_eq_true, if_false]

/-- C6 witness: a `profile_set` call with a singleton property set
builds the same envelope over the empty store and over a non-empty
store, and that envelope carries no `event` field. -/
theorem c6_witness :
    (bs "profile_set") ∈ profileTypes
    ∧ _sa_get_child (bs "event")
        (buildMsg env0 (.dict_ (some (bs "properties"))
            [.int_ (some (bs "super")) 1])
          (some (bs "u1")) none (bs "profile_set") none
          (some (.dict_ (some (bs "properties"))
            [.bool_ (some (bs "vip")) true]))
          (bs "demo.c") (bs "main") 2) = none
    ∧ buildMsg env0 (.dict_ (some (bs "properties"))
          [.int_ (some (bs "super")) 1])
        (some (bs "u1")) none (bs "profile_set") none
        (some (.dict_ (some (bs "properties"))
          [.bool_ (some (bs "vip")) true]))
        (bs "demo.c") (bs "main") 2 =
      buildMsg env0 store0
        (some (bs "u1")) none (bs "profile_set") none
        (some (.dict_ (some (bs "properties"))
          [.bool_ (some (bs "vip")) true]))
        (bs "demo.c") (bs "main") 2 := by
  have hm : (bs "profile_set") ∈ profileTypes := by
    unfold profileTypes
    exact List.mem_cons_self _ _
  have h := c6_profile_ops env0
    (.dict_ (some (bs "properties")) [.int_ (some (bs "super")) 1])
    store0 (some (bs "u1")) none hm none
    (some (.dict_ (some (bs "properties"))
      [.bool_ (some (bs "vip")) true]))
    (bs "demo.c") (bs "main") 2
  exact ⟨hm, h.1, h.2⟩

/-- C3: the envelope's `time` field is the `gettimeofday` epoch in
milliseconds unless the supplied properties carry a `$time` date entry,
in which case it equals that date's seconds*1000 + microseconds/1000;
the supplied `$time` entry is never copied into the inner properties
dict (whose `$time` lookup is empty whenever the store contributes no
`$time` entry of its own). -/
theorem c3_time_field (env : Env) (store : SANode) (d o : Option Bytes)
    (t : Bytes) (e : Option Bytes) (P : SANode) (f fn : Bytes) (l : Nat) :
    ((∀ c ∈ P.children, keyMatch c.key (bs "$time") = false) →
      _sa_get_child (bs "time")
          (buildMsg env store d o t e (some P) f fn l) =
        some (.int_ (some (bs "time"))
          (env.nowSec * 1000 + Int.tdiv env.nowUsec 1000)))
    ∧ (∀ dk ds du, _sa_get_child (bs "$time") P = some (.date_ dk ds du) →
        _sa_get_child (bs "time")
            (buildMsg env store d o t e (some P) f fn l) =
          some (.int_ (some (bs "time")) (ds * 1000 + Int.tdiv du 1000)))
    ∧ (∀ inn, _sa_get_child (bs "properties")
          (buildMsg env store d o t e (some P) f fn l) = some inn →
        (∀ c ∈ store.children, keyMatch c.key (bs "$time") = false) →
        _sa_get_child (bs "$time") inn = none) := by
  have hkey : keyMatch
      (copyProps P P.children (baseMsg env d o t e f fn l)
        (innerInit store t)).2.key (bs "time") = false := by
    rw [keyMatch.eq_def, copy_snd_key]
    decide
  refine ⟨?_, ?_, ?_⟩
  · intro h
    rw [buildMsg_eq_some env store d o t e rfl f fn l,
      get_add_other hkey,
      copy_fst_time_none P P.children _ _ h]
    exact baseMsg_get_time env d o t e f fn l
  · intro dk ds du hsu
    rw [buildMsg_eq_some env store d o t e rfl f fn l,
      get_add_other hkey]
    exact copy_fst_time_any hsu P.children _
      (baseMsg_isDict env d o t e f fn l) (get_child_some_any hsu)
  · intro inn hinn hstore
    rw [get_buildMsg_properties env store d o t e f fn l] at hinn
    have hinn' := Option.some.inj hinn
    subst hinn'
    rw [copy_snd]
    rw [get_addAll_other ?hfil]
    case hfil =>
      intro c hc
      have := (List.mem_filter.mp hc).2
      simp only [notSpecial, Bool.and_eq_true, Bool.not_eq_true'] at this
      exact this.1
    exact get_innerInit_other (by decide) (by decide) hstore t

/-- C3 witness: with supplied properties `{os:"iOS", $time: date
1600000000s 687000us}` over the empty store, the envelope time is
1600000000687 and the inner dict holds no `$time`; with `{os:"iOS"}`
alone the envelope time is the 1500000000123 wall-clock value of
`env0`. -/
theorem c3_witness :
    ((∀ c ∈ (SANode.dict_ (some (bs "properties"))
        [.string_ (some (bs "os")) (bs "iOS")]).children,
        keyMatch c.key (bs "$time") = false)
      ∧ _sa_get_child (bs "time")
          (buildMsg env0 store0 (some (bs "u")) none (bs "track")
            (some (bs "Sign")) (some (.dict_ (some (bs "properties"))
              [.string_ (some (bs "os")) (bs "iOS")]))
            (bs "demo.c") (bs "main") 3) =
        some (.int_ (some (bs "time")) 1500000000123))
    ∧ (_sa_get_child (bs "$time")
          (.dict_ (some (bs "properties"))
            [.string_ (some (bs "os")) (bs "iOS"),
             .date_ (some (bs "$time")) 1600000000 687000]) =
        some (.date_ (some (bs "$time")) 1600000000 687000)
      ∧ _sa_get_child (bs "time")
          (buildMsg env0 store0 (some (bs "u")) none (bs "track")
            (some (bs "Sign")) (some (.dict_ (some (bs "properties"))
              [.string_ (some (bs "os")) (bs "iOS"),
               .date_ (some (bs "$time")) 1600000000 687000]))
            (bs "demo.c") (bs "main") 3) =
        some (.int_ (some (bs "time")) 1600000000687)) := by
  constructor
  · constructor
    · intro c hc
      simp only [SANode.children, List.mem_singleton] at hc
      subst hc
      decide
    · have h := (c3_time_field env0 store0 (some (bs "u")) none (bs "track")
        (some (bs "Sign")) (.dict_ (some (bs "properties"))
          [.string_ (some (bs "os")) (bs "iOS")])
        (bs "demo.c") (bs "main") 3).1
      have hb := h ?hc
      case hc =>
        intro c hc
        simp only [SANode.children, List.mem_singleton] at hc
        subst hc
        decide
      exact hb
  · constructor
    · rfl
    · exact (c3_time_field env0 store0 (some (bs "u")) none (bs "track")
        (some (bs "Sign")) (.dict_ (some (bs "properties"))
          [.string_ (some (bs "os")) (bs "iOS"),
           .date_ (some (bs "$time")) 1600000000 687000])
        (bs "demo.c") (bs "main") 3).2.1
        (some (bs "$time")) 1600000000 687000 rfl

/-- C4: the copy loop copies exactly the non-`$time`, non-`$project`
caller entries into the inner dict (in `_sa_add_child` fold order); a
`$project` string entry is instead promoted to the envelope root as a
string field `project`; and the inner dict's `$project` lookup is empty
whenever the store contributes no `$project` entry of its own. -/
theorem c4_project_promotion (env : Env) (store : SANode)
    (d o : Option Bytes) (t : Bytes) (e : Option Bytes) (P : SANode)
    (f fn : Bytes) (l : Nat) :
    (∀ inn, _sa_get_child (bs "properties")
          (buildMsg env store d o t e (some P) f fn l) = some inn →
        inn = addAll (P.children.filter notSpecial) (innerInit store t)
        ∧ ((∀ c ∈ store.children, keyMatch c.key (bs "$project") = false) →
            _sa_get_child (bs "$project") inn = none))
    ∧ (∀ pk ps_, _sa_get_child (bs "$project") P =
          some (.string_ pk ps_) →
        _sa_get_child (bs "project")
            (buildMsg env store d o t e (some P) f fn l) =
          some (.string_ (some (bs "project")) ps_)) := by
  constructor
  · intro inn hinn
    rw [get_buildMsg_properties env store d o t e f fn l] at hinn
    have hinn' := Option.some.inj hinn
    subst hinn'
    constructor
    · exact copy_snd P P.children _ _
    · intro hstore
      rw [copy_snd]
      rw [get_addAll_other ?hfil]
      case hfil =>
        intro c hc
        have := (List.mem_filter.mp hc).2
        simp only [notSpecial, Bool.and_eq_true, Bool.not_eq_true'] at this
        exact this.2
      exact get_innerInit_other (by decide) (by decide) hstore t
  · intro pk ps_ hsu
    have hkey : keyMatch
        (copyProps P P.children (baseMsg env d o t e f fn l)
          (innerInit store t)).2.key (bs "project") = false := by
      rw [keyMatch.eq_def, copy_snd_key]
      decide
    rw [buildMsg_eq_some env store d o t e rfl f fn l,
      get_add_other hkey]
    exact copy_fst_project_any hsu P.children _
      (baseMsg_isDict env d o t e f fn l) (get_child_some_any hsu)

/-- C4 witness: supplying `$project:"Foo"` and `os:"iOS"` over the
empty store yields top-level `project:"Foo"`, an inner dict equal to
the fold of the non-special entries, and no `$project` inside it. -/
theorem c4_witness :
    (_sa_get_child (bs "$project")
        (.dict_ (some (bs "properties"))
          [.string_ (some (bs "os")) (bs "iOS"),
           .string_ (some (bs "$project")) (bs "Foo")]) =
      some (.string_ (some (bs "$project")) (bs "Foo")))
    ∧ _sa_get_child (bs "project")
        (buildMsg env0 store0 (some (bs "u")) none (bs "track")
          (some (bs "Sign")) (some (.dict_ (some (bs "properties"))
            [.string_ (some (bs "os")) (bs "iOS"),
             .string_ (some (bs "$project")) (bs "Foo")]))
          (bs "demo.c") (bs "main") 4) =
      some (.string_ (some (bs "project")) (bs "Foo"))
    ∧ (∀ inn, _sa_get_child (bs "properties")
          (buildMsg env0 store0 (some (bs "u")) none (bs "track")
            (some (bs "Sign")) (some (.dict_ (some (bs "properties"))
              [.string_ (some (bs "os")) (bs "iOS"),
               .string_ (some (bs "$project")) (bs "Foo")]))
            (bs "demo.c") (bs "main") 4) = some inn →
        _sa_get_child (bs "$project") inn = none) := by
  have h := c4_project_promotion env0 store0 (some (bs "u")) none
    (bs "track") (some (bs "Sign"))
    (.dict_ (some (bs "properties"))
      [.string_ (some (bs "os")) (bs "iOS"),
       .string_ (some (bs "$project")) (bs "Foo")])
    (bs "demo.c") (bs "main") 4
  refine ⟨rfl, ?_, ?_⟩
  · exact h.2 (some (bs "$project")) (bs "Foo") rfl
  · intro inn hinn
    exact (h.1 inn hinn).2 (by intro c hc; simp [store0, SANode.children]
      at hc)

/-- C7 (code bug): `_sa_get_current_date` omits the `+ 1900` on
`tm_year`, so on 2017-01-01 local time (`tm_year = 117`, `tm_mon = 0`,
`tm_mday = 1`) it yields 1170101, not the YYYYMMDD value 20170101 its
own field comment (`20170101`) and the claim describe; consequently a
rotating `send` opens `<prefix>.log.1170101`.  Moreover `send` never
checks the `fwrite` results, so a failed write still returns `SA_OK`
(the model has no write-failure input at all because the C inspects
none). -/
theorem c7_current_date_bug :
    _sa_get_current_date ⟨117, 0, 1, 2, 3, 4⟩ = 1170101
    ∧ (1170101 : Int) ≠ 20170101
    ∧ _sa_logging_consumer_send
        ⟨⟨117, 0, 1, 2, 3, 4⟩, fun _ => true⟩
        ⟨[], bs "demo", 0, none⟩ (bs "x") =
      (SA_OK,
       ⟨bs "demo" ++ bs ".log." ++ intDigits 1170101, bs "demo", 1170101,
        some (bs "demo" ++ bs ".log." ++ intDigits 1170101)⟩,
       [FileAction.openedAppend
          (bs "demo" ++ bs ".log." ++ intDigits 1170101),
        FileAction.wrote
          (some (bs "demo" ++ bs ".log." ++ intDigits 1170101))
          (bs "x" ++ [10])])
    := by
  refine ⟨rfl, by decide, ?_⟩
  rfl

/-- C8 counterexample: for the string node with payload byte 0xFF
(invalid UTF-8), `_sa_dump_string` does return the invalid-parameter
error to its caller, but that caller — `_sa_dump_node`, the encoder
entry point — ignores it and returns `SA_OK` with the string silently
omitted, so the failure is swallowed at the top level, contrary to
the claim. -/
theorem c8_counterexample :
    sa_utf8_validate [255] = false
    ∧ (_sa_dump_string [255]).1 = SA_INVALID_PARAMETER_ERROR
    ∧ (_sa_dump_node env0 (.string_ (some (bs "k")) [255])).1 = SA_OK
    ∧ (_sa_dump_node env0 (.string_ (some (bs "k")) [255])).2 = [] := by
  have hv : sa_utf8_validate [255] = false := by
    unfold sa_utf8_validate
    simp [sa_utf8_validate_cz]
  have hds : _sa_dump_string [255] = (SA_INVALID_PARAMETER_ERROR, []) := by
    unfold _sa_dump_string
    rw [hv]
    rfl
  refine ⟨hv, by rw [hds], rfl, ?_⟩
  show (_sa_dump_string [255]).2 = []
  rw [hds]

/-- C8 (amended): for a String node whose payload fails UTF-8
validation, `_sa_dump_string` returns the invalid-parameter error to
its caller having written nothing, but `_sa_dump_node` ignores that
status and returns `SA_OK` with empty output (the error is swallowed at
the top level); the per-character fallback path replaces a single
invalid byte with the UTF-8 bytes of U+FFFD (`EF BF BD`) and continues
encoding the rest. -/
theorem c8_invalid_utf8 (env : Env) (key : Option Bytes) {s : Bytes}
    (hv : sa_utf8_validate s = false) :
    _sa_dump_string s = (SA_INVALID_PARAMETER_ERROR, [])
    ∧ _sa_dump_node env (.string_ key s) = (SA_OK, [])
    ∧ (∀ b rest, sa_utf8_validate_cz (b :: rest) = 0 →
        dumpStringBody false (b :: rest) =
          [0xEF, 0xBF, 0xBD] ++ dumpStringBody false rest) := by
  have hds : _sa_dump_string s = (SA_INVALID_PARAMETER_ERROR, []) := by
    unfold _sa_dump_string
    rw [hv]
    rfl
  refine ⟨hds, ?_, ?_⟩
  · show (SA_OK, (_sa_dump_string s).2) = (SA_OK, [])
    rw [hds]
  · intro b rest hcz
    have hb := cz_zero_ge hcz
    have hne : ∀ m : Nat, m < 128 → (b == m) = false := by
      intro m hm
      simp only [beq_eq_false_iff_ne]
      omega
    rw [dumpStringBody]
    simp only [hne 34 (by norm_num), hne 92 (by norm_num),
      hne 8 (by norm_num), hne 12 (by norm_num), hne 10 (by norm_num),
      hne 13 (by norm_num), hne 9 (by norm_num), Bool.false_eq_true,
      if_false, hcz]
    rfl

/-- C8 amended-claim witness: the two-byte payload `FF 41` fails
validation; dumping it as a string yields the error with no output, the
node dump yields `SA_OK` with no output, and the fallback loop encodes
it as U+FFFD followed by `A`. -/
theorem c8_witness :
    sa_utf8_validate [255, 65] = false
    ∧ (_sa_dump_string [255, 65] = (SA_INVALID_PARAMETER_ERROR, [])
      ∧ _sa_dump_node env0 (.string_ none [255, 65]) = (SA_OK, [])
      ∧ (∀ b rest, sa_utf8_validate_cz (b :: rest) = 0 →
          dumpStringBody false (b :: rest) =
            [0xEF, 0xBF, 0xBD] ++ dumpStringBody false rest)) := by
  have hv : sa_utf8_validate [255, 65] = false := by
    unfold sa_utf8_validate
    simp [sa_utf8_validate_cz]
  exact ⟨hv, c8_invalid_utf8 env0 none hv⟩

/-- C9: a Date node dumps as the quoted, zero-padded local-time string
`"YYYY-MM-DD HH:MM:SS.mmm"` whose final field is the raw microseconds
value zero-padded to at least three digits — used as given, not
converted to milliseconds: reading the digits back yields exactly the
microseconds value. -/
theorem c9_date_dump (env : Env) (key : Option Bytes) (s u : Int)
    (hu : 0 ≤ u) :
    (_sa_dump_node env (.date_ key s u)).2 =
      [34] ++ padInt 4 ((env.localtime s).year + 1900) ++ [45]
        ++ padInt 2 ((env.localtime s).mon + 1) ++ [45]
        ++ padInt 2 (env.localtime s).mday ++ [32]
        ++ padInt 2 (env.localtime s).hour ++ [58]
        ++ padInt 2 (env.localtime s).min ++ [58]
        ++ padInt 2 (env.localtime s).sec ++ [46]
        ++ padNat 3 u.natAbs ++ [34]
    ∧ 3 ≤ (padNat 3 u.natAbs).length
    ∧ decodeDigits (padNat 3 u.natAbs) = u.natAbs
    ∧ (u.natAbs : Int) = u := by
  refine ⟨?_, padNat_length 3 u.natAbs, decode_padNat 3 u.natAbs,
    Int.natAbs_of_nonneg hu⟩
  show dumpDate env s u = _
  unfold dumpDate
  have : padInt 3 u = padNat 3 u.natAbs := by
    unfold padInt
    rw [if_neg (by omega)]
  rw [this]

/-- C9 witness: under `env0` (localtime 2017-01-01 02:03:04) a date
with 687000 microseconds dumps as `"2017-01-01 02:03:04.687000"` — six
digits of raw microseconds after the dot, not `.687`. -/
theorem c9_witness :
    (0 : Int) ≤ 687000
    ∧ ((_sa_dump_node env0 (.date_ none 5 687000)).2 =
        [34] ++ padInt 4 ((env0.localtime 5).year + 1900) ++ [45]
          ++ padInt 2 ((env0.localtime 5).mon + 1) ++ [45]
          ++ padInt 2 (env0.localtime 5).mday ++ [32]
          ++ padInt 2 (env0.localtime 5).hour ++ [58]
          ++ padInt 2 (env0.localtime 5).min ++ [58]
          ++ padInt 2 (env0.localtime 5).sec ++ [46]
          ++ padNat 3 (687000 : Int).natAbs ++ [34]
      ∧ 3 ≤ (padNat 3 (687000 : Int).natAbs).length
      ∧ decodeDigits (padNat 3 (687000 : Int).natAbs) =
          (687000 : Int).natAbs
      ∧ (((687000 : Int).natAbs : Int)) = 687000) :=
  ⟨by decide, c9_date_dump env0 none 5 687000 (by decide)⟩

end SA
